import Mathlib

/-!
Shallow embedding of the IRI Team-4 hackathon "ai-service" conversation engine
(`src/ai-service/app/models/conversation.py`,
 `src/ai-service/app/services/conversation_service.py`,
 `src/ai-service/app/services/validation_service.py`,
 `src/ai-service/app/services/prefill_agent.py`).

Python values are modelled by `PyVal` (JSON-like: None, bool, int, str, list,
dict).  Python floats are modelled as integers (no claim depends on non-integer
arithmetic).  Python exceptions are modelled by `Except String`; a `.error`
result corresponds to the Python code raising.
-/

/-- Python/JSON values as used by the conversation engine.  `null` is Python
`None`.  Numbers are modelled as integers. -/
inductive PyVal where
  | null : PyVal
  | bool (b : Bool) : PyVal
  | int (n : Int) : PyVal
  | str (s : String) : PyVal
  | list (xs : List PyVal) : PyVal
  | dict (kvs : List (String × PyVal)) : PyVal

mutual

/-- Python `==`.  Booleans compare numerically with integers (`True == 1`).
Dict equality is modelled entrywise in order (no claim compares dicts). -/
def pyEq : PyVal → PyVal → Bool
  | .null, .null => true
  | .bool a, .bool b => a == b
  | .bool a, .int n => (if a then (1 : Int) else 0) == n
  | .int n, .bool a => n == (if a then (1 : Int) else 0)
  | .int m, .int n => m == n
  | .str s, .str t => s == t
  | .list xs, .list ys => pyEqList xs ys
  | .dict xs, .dict ys => pyEqPairs xs ys
  | _, _ => false
termination_by structural a => a

def pyEqList : List PyVal → List PyVal → Bool
  | [], [] => true
  | x :: xs, y :: ys => pyEq x y && pyEqList xs ys
  | _, _ => false
termination_by structural a => a

def pyEqPairs : List (String × PyVal) → List (String × PyVal) → Bool
  | [], [] => true
  | (k, v) :: xs, (l, w) :: ys => k == l && pyEq v w && pyEqPairs xs ys
  | _, _ => false
termination_by structural a => a

end

/-- Python's `is None` identity test. -/
def PyVal.isNull : PyVal → Bool
  | .null => true
  | _ => false

/-- Python truthiness (`bool(v)`). -/
def pyTruthy : PyVal → Bool
  | .null => false
  | .bool b => b
  | .int n => n != 0
  | .str s => !(s == "")
  | .list xs => !xs.isEmpty
  | .dict kvs => !kvs.isEmpty

/-- Numeric view of a Python value (`bool` coerces to 0/1). -/
def pyToNum : PyVal → Option Int
  | .bool b => some (if b then 1 else 0)
  | .int n => some n
  | _ => none

mutual

/-- Python ordering comparison (`<`, `>`, …).  Numbers compare with numbers,
strings with strings, lists lexicographically; any other mix raises
`TypeError`, modelled as `.error`. -/
def pyCmp : PyVal → PyVal → Except String Ordering
  | .str s, .str t => .ok (compare s t)
  | .list xs, .list ys => pyCmpList xs ys
  | a, b =>
    match pyToNum a, pyToNum b with
    | some m, some n => .ok (compare m n)
    | _, _ => .error "TypeError: unorderable types"
termination_by structural a => a

def pyCmpList : List PyVal → List PyVal → Except String Ordering
  | [], [] => .ok .eq
  | [], _ :: _ => .ok .lt
  | _ :: _, [] => .ok .gt
  | x :: xs, y :: ys =>
    if pyEq x y then pyCmpList xs ys
    else pyCmp x y
termination_by structural a => a

end

/-- Whether the first character list starts the second. -/
def charsStartWith : List Char → List Char → Bool
  | [], _ => true
  | _ :: _, [] => false
  | a :: as, b :: bs => a == b && charsStartWith as bs

/-- Substring containment on character lists (Python `needle in haystack`). -/
def charsContain (needle : List Char) : List Char → Bool
  | [] => charsStartWith needle []
  | b :: bs => charsStartWith needle (b :: bs) || charsContain needle bs

/-- Python membership `a in b`: lists/dicts use `==` over elements/keys,
strings use substring containment (string needle only); other containers
raise `TypeError`. -/
def pyIn (a b : PyVal) : Except String Bool :=
  match b with
  | .list xs => .ok (xs.any (pyEq a))
  | .dict kvs => .ok (kvs.any fun kv => pyEq a (.str kv.1))
  | .str t =>
    match a with
    | .str s => .ok (charsContain s.toList t.toList)
    | _ => .error "TypeError: in <string> requires string as left operand"
  | _ => .error "TypeError: argument is not iterable"

mutual

/-- `repr` of a Python string (single quotes). -/
def pyStrRepr (s : String) : String :=
  String.singleton (Char.ofNat 39) ++ s ++ String.singleton (Char.ofNat 39)

/-- Python `repr` (used inside `str` of containers). -/
def pyRepr : PyVal → String
  | .null => "None"
  | .bool b => if b then "True" else "False"
  | .int n => toString n
  | .str s => pyStrRepr s
  | .list xs => "[" ++ pyReprSeq xs ++ "]"
  | .dict kvs => "\x7b" ++ pyReprPairs kvs ++ "\x7d"
termination_by structural a => a

def pyReprSeq : List PyVal → String
  | [] => ""
  | [x] => pyRepr x
  | x :: xs => pyRepr x ++ ", " ++ pyReprSeq xs
termination_by structural a => a

def pyReprPairs : List (String × PyVal) → String
  | [] => ""
  | [(k, v)] => pyStrRepr k ++ ": " ++ pyRepr v
  | (k, v) :: xs => pyStrRepr k ++ ": " ++ pyRepr v ++ ", " ++ pyReprPairs xs
termination_by structural a => a

end

/-- Python `str(v)` (scalars render bare, containers via `repr`). -/
def pyStr : PyVal → String
  | .null => "None"
  | .bool b => if b then "True" else "False"
  | .int n => toString n
  | .str s => s
  | .list xs => "[" ++ pyReprSeq xs ++ "]"
  | .dict kvs => "\x7b" ++ pyReprPairs kvs ++ "\x7d"

/-- Python repr of a list of strings, e.g. `['a', 'b']` (used in tool-result
acknowledgment strings). -/
def pyReprStrList (xs : List String) : String :=
  "[" ++ pyReprSeq (xs.map PyVal.str) ++ "]"

/-!
## Visibility conditions (`conversation.py` lines 105–182)

A condition is a JSON dict.  `_eval_condition` dispatches on which keys are
present: `operator` + `conditions` → compound, `field_id` → simple (internal
format; its `value` key is read with `cond["value"]`, so a missing key raises
`KeyError`), `field` → leaf (eApp format; `op` defaults to "eq" via
`cond.get("op", "eq")` and a missing `value` key reads as `None` via
`cond.get("value")`), anything else → `True`.
-/

/-- A visibility condition.  `simple.value = none` models a dict without a
`value` key (read with `cond["value"]`, hence `KeyError`); in `leaf` a missing
`value` key is already collapsed to `.null` by `cond.get("value")`. -/
inductive Cond where
  | compound (op : String) (children : List Cond) : Cond
  | simple (field_id op : String) (value : Option PyVal) : Cond
  | leaf (field op : String) (value : PyVal) : Cond
  | other : Cond

/-- `data.get(key)`: a missing key reads as Python `None`. -/
def dataGet (data : List (String × PyVal)) (key : String) : PyVal :=
  (data.lookup key).getD .null

/-- `ConversationState._eval_simple` (internal `{field_id, operator, value}`
format).  `cond["value"]` raises `KeyError` when the key is absent; `in` /
`not_in` apply raw Python membership to the expected value (so a `None`
expected raises `TypeError`). -/
def eval_simple (field_id op : String) (value : Option PyVal)
    (data : List (String × PyVal)) : Except String Bool :=
  match value with
  | none => .error "KeyError: value"
  | some expected =>
    let v := dataGet data field_id
    if op = "equals" then .ok (pyEq v expected)
    else if op = "not_equals" then .ok (!pyEq v expected)
    else if op = "in" then pyIn v expected
    else if op = "not_in" then
      match pyIn v expected with
      | .error e => .error e
      | .ok b => .ok (!b)
    else .ok true

/-- `ConversationState._eval_leaf` (eApp `{field, op, value}` format).
Numeric comparisons guard `value is not None`; `in`/`not_in` replace a falsy
expected (`None`, `[]`, …) by `[]` via `expected or []`. -/
def eval_leaf (field op : String) (expected : PyVal)
    (data : List (String × PyVal)) : Except String Bool :=
  let v := dataGet data field
  if op = "eq" then .ok (pyEq v expected)
  else if op = "neq" then .ok (!pyEq v expected)
  else if op = "contains" then
    match v with
    | .list xs => .ok (xs.any (pyEq expected))
    | _ => .ok false
  else if op = "gt" then
    match v with
    | .null => .ok false
    | _ =>
      match pyCmp v expected with
      | .error e => .error e
      | .ok c => .ok (c == .gt)
  else if op = "gte" then
    match v with
    | .null => .ok false
    | _ =>
      match pyCmp v expected with
      | .error e => .error e
      | .ok c => .ok (c == .gt || c == .eq)
  else if op = "lt" then
    match v with
    | .null => .ok false
    | _ =>
      match pyCmp v expected with
      | .error e => .error e
      | .ok c => .ok (c == .lt)
  else if op = "lte" then
    match v with
    | .null => .ok false
    | _ =>
      match pyCmp v expected with
      | .error e => .error e
      | .ok c => .ok (c == .lt || c == .eq)
  else if op = "in" then
    pyIn v (if pyTruthy expected then expected else .list [])
  else if op = "not_in" then
    match pyIn v (if pyTruthy expected then expected else .list []) with
    | .error e => .error e
    | .ok b => .ok (!b)
  else .ok true


mutual

/-- `ConversationState._eval_condition`.  The `_eval_compound` dispatch
(AND = all, OR = any, NOT = not any; unknown operators evaluate to `True`)
is inlined in the `.compound` branch; `eval_compound` below restates it. -/
def eval_condition (cond : Cond) (data : List (String × PyVal)) : Except String Bool :=
  match cond with
  | .compound op children =>
    if op = "AND" then evalAll children data
    else if op = "OR" then evalAny children data
    else if op = "NOT" then
      match evalAny children data with
      | .error e => .error e
      | .ok b => .ok (!b)
    else .ok true
  | .simple field_id op value => eval_simple field_id op value data
  | .leaf field op value => eval_leaf field op value data
  | .other => .ok true
termination_by structural cond

/-- Short-circuiting `all(...)` over condition evaluation. -/
def evalAll (cs : List Cond) (data : List (String × PyVal)) : Except String Bool :=
  match cs with
  | [] => .ok true
  | c :: rest =>
    match eval_condition c data with
    | .error e => .error e
    | .ok true => evalAll rest data
    | .ok false => .ok false
termination_by structural cs

/-- Short-circuiting `any(...)` over condition evaluation. -/
def evalAny (cs : List Cond) (data : List (String × PyVal)) : Except String Bool :=
  match cs with
  | [] => .ok false
  | c :: rest =>
    match eval_condition c data with
    | .error e => .error e
    | .ok true => .ok true
    | .ok false => evalAny rest data
termination_by structural cs

end

/-- `ConversationState._eval_compound` as its own definition: AND = all,
OR = any, NOT = not any (a NOR over the child list); unknown operators
evaluate to `True`.  Definitionally the `.compound` branch of
`eval_condition`. -/
def eval_compound (op : String) (children : List Cond) (data : List (String × PyVal)) :
    Except String Bool :=
  if op = "AND" then evalAll children data
  else if op = "OR" then evalAny children data
  else if op = "NOT" then
    match evalAny children data with
    | .error e => .error e
    | .ok b => .ok (!b)
  else .ok true

/-!
## Conversation state (`conversation.py` lines 11–112)
-/

/-- `FieldStatus` enum. -/
inductive FieldStatus where
  | missing
  | unconfirmed
  | confirmed
  | collected
deriving DecidableEq, Repr

/-- The `.value` string of a `FieldStatus`. -/
def FieldStatus.toStr : FieldStatus → String
  | .missing => "missing"
  | .unconfirmed => "unconfirmed"
  | .confirmed => "confirmed"
  | .collected => "collected"

/-- `SessionPhase` enum. -/
inductive SessionPhase where
  | spot_check
  | collecting
  | reviewing
  | complete
  | submitted
deriving DecidableEq, Repr

/-- The total order used to state phase monotonicity:
SPOT_CHECK < COLLECTING < REVIEWING < COMPLETE < SUBMITTED. -/
def SessionPhase.rank : SessionPhase → Nat
  | .spot_check => 0
  | .collecting => 1
  | .reviewing => 2
  | .complete => 3
  | .submitted => 4

/-- `TrackedField` (pydantic model).  `validation` is the raw rules dict,
`options` the optional list of option dicts, `conditions` the optional list of
visibility conditions. -/
structure TrackedField where
  field_id : String
  value : PyVal
  status : FieldStatus
  label : String
  field_type : String
  required : Bool
  validation : List (String × PyVal)
  options : Option (List (List (String × PyVal)))
  conditions : Option (List Cond)
  validation_error : Option String

/-- `Role` enum for messages. -/
inductive Role where
  | user
  | assistant
deriving DecidableEq, Repr

/-- `Message` (timestamp omitted: no claim mentions message timestamps). -/
structure Message where
  role : Role
  content : String
  extracted_fields : Option (List (String × PyVal))

/-- `ConversationState`.  `fields` is the insertion-ordered dict
`dict[str, TrackedField]` as an association list; `submitted_at` models the
timestamp as an abstract `Nat` supplied by the caller at submit time.
Presentation-only attributes (session id, steps, model override, created_at,
advisor name, client context) are not needed by any claim and are omitted. -/
structure ConversationState where
  phase : SessionPhase
  fields : List (String × TrackedField)
  callback_url : Option String
  messages : List Message
  submitted_at : Option Nat

/-- The dict built in `_conditions_met`:
 `{f.field_id: f.value for f in self.fields.values() if f.value is not None}`. -/
def dataOf (st : ConversationState) : List (String × PyVal) :=
  st.fields.filterMap fun kv =>
    match kv.2.value with
    | .null => none
    | v => some (kv.2.field_id, v)

/-- `ConversationState._conditions_met` applied to an explicit data dict.
`if not conditions` is Python truthiness: both `None` and `[]` yield `True`. -/
def conditions_met_data (data : List (String × PyVal))
    (conditions : Option (List Cond)) : Except String Bool :=
  match conditions with
  | none => .ok true
  | some [] => .ok true
  | some cs => evalAll cs data

/-- `ConversationState._conditions_met`. -/
def conditions_met (st : ConversationState) (conditions : Option (List Cond)) :
    Except String Bool :=
  conditions_met_data (dataOf st) conditions

/-- The list comprehension of `active_fields` over an explicit field list,
with the data dict fixed up front (it does not change during the
comprehension). -/
def activeFieldsAux (data : List (String × PyVal)) :
    List (String × TrackedField) → Except String (List TrackedField)
  | [] => .ok []
  | kv :: rest =>
    match conditions_met_data data kv.2.conditions with
    | .error e => .error e
    | .ok b =>
      match activeFieldsAux data rest with
      | .error e => .error e
      | .ok l => .ok (if b then kv.2 :: l else l)

/-- `ConversationState.active_fields`. -/
def active_fields (st : ConversationState) : Except String (List TrackedField) :=
  activeFieldsAux (dataOf st) st.fields

/-- `ConversationState.missing_required`. -/
def missing_required (st : ConversationState) : Except String (List TrackedField) :=
  match active_fields st with
  | .error e => .error e
  | .ok l => .ok (l.filter fun f => f.required && f.status == .missing)

/-- `ConversationState.unconfirmed_fields`. -/
def unconfirmed_fields (st : ConversationState) : Except String (List TrackedField) :=
  match active_fields st with
  | .error e => .error e
  | .ok l => .ok (l.filter fun f => f.status == .unconfirmed)

/-- `ConversationState.all_required_resolved`. -/
def all_required_resolved (st : ConversationState) : Except String Bool :=
  match active_fields st with
  | .error e => .error e
  | .ok l => .ok (l.all fun f => !(f.required && (f.status == .missing || f.status == .unconfirmed)))

/-- `ConversationState.application_data`: confirmed + collected non-null
values, keyed by `field_id` (visibility conditions are not consulted). -/
def application_data (st : ConversationState) : List (String × PyVal) :=
  st.fields.filterMap fun kv =>
    match kv.2.value with
    | .null => none
    | v =>
      if kv.2.status == .confirmed || kv.2.status == .collected then
        some (kv.2.field_id, v)
      else
        none

/-!
## Field validation (`validation_service.py`)

The Python standard library (`re`, `datetime`) is external to the repository
and is modelled by an oracle `PyLib`.  Source-constant patterns (the email
regex and the default SSN regex) are valid regexes, so they are matched with
the total `reMatch`; user-supplied patterns go through `fullmatch`, which
raises `re.error` when the pattern does not compile.

Validators return `none` for a valid value and `some msg` for an invalid one;
a `.error` result models an uncaught Python exception (`TypeError` from
comparing `len(s)` or a number against a non-numeric rule value, `re.error`
from a bad pattern, `KeyError` from an option without a `value` key).
-/

/-- Oracle for Python's `re` and `datetime` libraries. -/
structure PyLib where
  reValid : String → Bool
  reMatch : String → String → Bool
  dateOk : String → Bool

/-- `re.fullmatch(p, s)` for a user-supplied pattern: `re.error` when the
pattern does not compile. -/
def PyLib.fullmatch (lib : PyLib) (p s : String) : Except String Bool :=
  if lib.reValid p then .ok (lib.reMatch p s) else .error "re.error: invalid pattern"

/-- `re.fullmatch` where the pattern comes from a rules dict and may be a
non-string (Python raises `TypeError`). -/
def fullmatchVal (lib : PyLib) (p : PyVal) (s : String) : Except String Bool :=
  match p with
  | .str ps => lib.fullmatch ps s
  | _ => .error "TypeError: first argument must be string or compiled pattern"

/-- The constant email regex of `_validate_email`. -/
def emailPattern : String := "[^@\\s]+@[^@\\s]+\\.[^@\\s]+"

/-- The default SSN regex of `_validate_ssn`. -/
def ssnDefaultPattern : String := "^\\d\x7b3\x7d-\\d\x7b2\x7d-\\d\x7b4\x7d$"

/-- A numeric bound read from a rules dict; comparing against a non-number
raises `TypeError`. -/
def boundCmp (n : Int) (v : PyVal) : Except String Ordering :=
  match pyToNum v with
  | some m => .ok (compare n m)
  | none => .error "TypeError: comparison with non-numeric rule value"

/-- Sequence two checks: an exception or a failure message in the first one
short-circuits (Python's early `return False, err`). -/
def andCheck (a : Except String (Option String))
    (b : Unit → Except String (Option String)) : Except String (Option String) :=
  match a with
  | .error e => .error e
  | .ok (some m) => .ok (some m)
  | .ok none => b ()

/-- The `min_length` check of `_validate_text`. -/
def checkMinLength (field : TrackedField) (s : String)
    (validation : List (String × PyVal)) : Except String (Option String) :=
  match validation.lookup "min_length" with
  | none => .ok none
  | some v =>
    match boundCmp (s.length : Int) v with
    | .error e => .error e
    | .ok c =>
      if c = .lt then
        .ok (some (field.label ++ " must be at least " ++ pyStr v ++ " characters."))
      else .ok none

/-- The `max_length` check of `_validate_text`. -/
def checkMaxLength (field : TrackedField) (s : String)
    (validation : List (String × PyVal)) : Except String (Option String) :=
  match validation.lookup "max_length" with
  | none => .ok none
  | some v =>
    match boundCmp (s.length : Int) v with
    | .error e => .error e
    | .ok c =>
      if c = .gt then
        .ok (some (field.label ++ " must be at most " ++ pyStr v ++ " characters."))
      else .ok none

/-- The `pattern` check of `_validate_text`. -/
def checkPattern (lib : PyLib) (field : TrackedField) (s : String)
    (validation : List (String × PyVal)) : Except String (Option String) :=
  match validation.lookup "pattern" with
  | none => .ok none
  | some p =>
    match fullmatchVal lib p s with
    | .error e => .error e
    | .ok m =>
      if m then .ok none
      else .ok (some (field.label ++ " format is invalid."))

/-- `_validate_text` (also used for `textarea`). -/
def validateText (lib : PyLib) (field : TrackedField) (value : PyVal)
    (validation : List (String × PyVal)) : Except String (Option String) :=
  let s := pyStr value
  andCheck (checkMinLength field s validation) fun _ =>
    andCheck (checkMaxLength field s validation) fun _ =>
      checkPattern lib field s validation

/-- `_validate_email`: constant pattern, then the text rules. -/
def validateEmail (lib : PyLib) (field : TrackedField) (value : PyVal)
    (validation : List (String × PyVal)) : Except String (Option String) :=
  if lib.reMatch emailPattern (pyStr value) then
    validateText lib field value validation
  else
    .ok (some (field.label ++ " must be a valid email address."))

/-- `_validate_phone`: custom pattern when present, else at least 10 digits. -/
def validatePhone (lib : PyLib) (field : TrackedField) (value : PyVal)
    (validation : List (String × PyVal)) : Except String (Option String) :=
  let s := pyStr value
  match validation.lookup "pattern" with
  | some p =>
    match fullmatchVal lib p s with
    | .error e => .error e
    | .ok m =>
      if m then .ok none
      else .ok (some (field.label ++ " format is invalid."))
  | none =>
    if (s.toList.filter Char.isDigit).length < 10 then
      .ok (some (field.label ++ " must have at least 10 digits."))
    else .ok none

/-- `_validate_ssn`: `validation.get("pattern", default)`. -/
def validateSsn (lib : PyLib) (field : TrackedField) (value : PyVal)
    (validation : List (String × PyVal)) : Except String (Option String) :=
  let s := pyStr value
  let res := match validation.lookup "pattern" with
    | some p => fullmatchVal lib p s
    | none => .ok (lib.reMatch ssnDefaultPattern s)
  match res with
  | .error e => .error e
  | .ok m =>
    if m then .ok none
    else .ok (some (field.label ++ " must be in format XXX-XX-XXXX."))

/-- `float(value)` as caught by `_validate_number`: numbers and numeric
strings convert, everything else raises `ValueError`/`TypeError`, which the
validator catches.  Non-integer numerals are outside the model. -/
def pyFloatCast : PyVal → Option Int
  | .int n => some n
  | .bool b => some (if b then 1 else 0)
  | .str s => s.toInt?
  | _ => none

/-- The `min_value` check of `_validate_number`. -/
def checkMinValue (field : TrackedField) (n : Int)
    (validation : List (String × PyVal)) : Except String (Option String) :=
  match validation.lookup "min_value" with
  | none => .ok none
  | some v =>
    match boundCmp n v with
    | .error e => .error e
    | .ok c =>
      if c = .lt then
        .ok (some (field.label ++ " must be at least " ++ pyStr v ++ "."))
      else .ok none

/-- The `max_value` check of `_validate_number`. -/
def checkMaxValue (field : TrackedField) (n : Int)
    (validation : List (String × PyVal)) : Except String (Option String) :=
  match validation.lookup "max_value" with
  | none => .ok none
  | some v =>
    match boundCmp n v with
    | .error e => .error e
    | .ok c =>
      if c = .gt then
        .ok (some (field.label ++ " must be at most " ++ pyStr v ++ "."))
      else .ok none

/-- `_validate_number` (also used for `currency`). -/
def validateNumber (field : TrackedField) (value : PyVal)
    (validation : List (String × PyVal)) : Except String (Option String) :=
  match pyFloatCast value with
  | none => .ok (some (field.label ++ " must be a number."))
  | some n =>
    andCheck (checkMinValue field n validation) fun _ =>
      checkMaxValue field n validation

/-- `_validate_select`: value must be among `opt["value"]`s when options are
present (an option without a `value` key raises `KeyError`; a non-string
label in the failure message raises `TypeError` in `", ".join`). -/
def optionValues : List (List (String × PyVal)) → Except String (List PyVal)
  | [] => .ok []
  | o :: rest =>
    match o.lookup "value" with
    | none => .error "KeyError: value"
    | some v =>
      match optionValues rest with
      | .error e => .error e
      | .ok vs => .ok (v :: vs)

/-- The labels joined into the `_validate_select` failure message
(`opt.get("label", opt["value"])`; `", ".join` needs string items). -/
def optionLabels : List (List (String × PyVal)) → Except String (List String)
  | [] => .ok []
  | o :: rest =>
    match (o.lookup "label").getD ((o.lookup "value").getD .null) with
    | .str s =>
      match optionLabels rest with
      | .error e => .error e
      | .ok ls => .ok (s :: ls)
    | _ => .error "TypeError: sequence item: expected str instance"

def validateSelect (field : TrackedField) (value : PyVal) :
    Except String (Option String) :=
  match field.options with
  | none => .ok none
  | some opts =>
    if opts.isEmpty then .ok none
    else
      match optionValues opts with
      | .error e => .error e
      | .ok vals =>
        if vals.any (pyEq value) then .ok none
        else
          match optionLabels opts with
          | .error e => .error e
          | .ok labels =>
            .ok (some (field.label ++ " must be one of: "
              ++ String.intercalate ", " labels ++ "."))

/-- `_validate_checkbox`: `isinstance(value, bool)`. -/
def validateCheckbox (field : TrackedField) (value : PyVal) :
    Except String (Option String) :=
  match value with
  | .bool _ => .ok none
  | _ => .ok (some (field.label ++ " must be true or false."))

/-- `_validate_date`: the `fromisoformat` try/except is abstracted into the
`dateOk` oracle (the `"T" in s` branch only selects which parser runs). -/
def validateDate (lib : PyLib) (field : TrackedField) (value : PyVal) :
    Except String (Option String) :=
  if lib.dateOk (pyStr value) then .ok none
  else .ok (some (field.label ++ " must be a valid date (YYYY-MM-DD)."))

/-- `_VALIDATORS.get(field.field_type)` dispatch; an unknown type has no
validator. -/
def runValidator (lib : PyLib) (field : TrackedField) (value : PyVal)
    (validation : List (String × PyVal)) : Except String (Option String) :=
  if field.field_type = "text" || field.field_type = "textarea" then
    validateText lib field value validation
  else if field.field_type = "email" then
    validateEmail lib field value validation
  else if field.field_type = "phone" then
    validatePhone lib field value validation
  else if field.field_type = "ssn" then
    validateSsn lib field value validation
  else if field.field_type = "number" || field.field_type = "currency" then
    validateNumber field value validation
  else if field.field_type = "select" then
    validateSelect field value
  else if field.field_type = "checkbox" then
    validateCheckbox field value
  else if field.field_type = "date" then
    validateDate lib field value
  else
    .ok none

/-- `custom_msg or err`: a truthy custom message (rendered with `str`)
replaces the validator's message. -/
def customOr (m : Option PyVal) (err : String) : String :=
  match m with
  | some v => if pyTruthy v then pyStr v else err
  | none => err

/-- `validate_field(field, value)` returning `(is_valid, error_message)`.
The guard is `value is None or value == ""` (identity with `None`, then
Python equality with the empty string). -/
def validate_field (lib : PyLib) (field : TrackedField) (value : PyVal) :
    Except String (Bool × Option String) :=
  if value.isNull || pyEq value (.str "") then
    if field.required then
      .ok (false,
        some ((if field.label ≠ "" then field.label else field.field_id) ++ " is required."))
    else
      .ok (true, none)
  else
    match runValidator lib field value field.validation with
    | .error e => .error e
    | .ok none => .ok (true, none)
    | .ok (some err) =>
      .ok (false, some (customOr (field.validation.lookup "custom_message") err))

/-!
## Tool-call processing (`conversation_service.py` lines 345–413)

A tool call is the dict produced by `LLMService.extract_tool_calls`, which
always supplies `id`, `name` and `input` keys; `input` is arbitrary JSON.
`process_tool_calls` mutates only `state.fields`; results are the per-call
result strings keyed by tool-call id (the Python `results` dict minus its
special `"updated_fields"` entry, which is returned separately here).
-/

/-- A tool call as returned by `LLMService.extract_tool_calls`. -/
structure ToolCall where
  id : String
  name : String
  input : PyVal

/-- An entry of the `updated_fields` list.  Successful extraction and
confirmation records carry `value` and no `validation_error`; failure records
carry the (unchanged) status string and the `validation_error` and no
`value`. -/
structure UpdateRec where
  field_id : String
  status : String
  value : Option PyVal
  validation_error : Option String

/-- Overwrite the field stored under a dict key (Python
`state.fields[fid] = ...` mutation; keys and order unchanged). -/
def setField : List (String × TrackedField) → String → TrackedField →
    List (String × TrackedField)
  | [], _, _ => []
  | (k, v) :: rest, fid, f =>
    if k = fid then (k, f) :: setField rest fid f
    else (k, v) :: setField rest fid f

/-- The `for field_id, value in inp.items()` loop of the
`extract_application_fields` branch.  Returns the accepted ids, the update
records, and the mutated fields. -/
def processExtractItems (lib : PyLib) :
    List (String × PyVal) → List (String × TrackedField) →
    Except String (List String × List UpdateRec × List (String × TrackedField))
  | [], fields => .ok ([], [], fields)
  | (field_id, value) :: rest, fields =>
    if value.isNull then processExtractItems lib rest fields
    else
      match fields.lookup field_id with
      | none => processExtractItems lib rest fields
      | some field =>
        match validate_field lib field value with
        | .error e => .error e
        | .ok (true, _) =>
          let f := {field with value := value, status := .collected, validation_error := none}
          match processExtractItems lib rest (setField fields field_id f) with
          | .error e => .error e
          | .ok (fu, upds, fields1) =>
            .ok (field_id :: fu,
              ⟨field_id, FieldStatus.collected.toStr, some value, none⟩ :: upds, fields1)
        | .ok (false, err) =>
          let f := {field with validation_error := err}
          match processExtractItems lib rest (setField fields field_id f) with
          | .error e => .error e
          | .ok (fu, upds, fields1) =>
            .ok (fu, ⟨field_id, field.status.toStr, none, err⟩ :: upds, fields1)

/-- Python iteration over a value (`for fid in confirmed_ids`): lists yield
elements, strings yield one-character strings, dicts yield keys; anything
else raises `TypeError`. -/
def pyIterate : PyVal → Except String (List PyVal)
  | .list xs => .ok xs
  | .str s => .ok (s.toList.map fun c => .str (String.singleton c))
  | .dict kvs => .ok (kvs.map fun kv => .str kv.1)
  | _ => .error "TypeError: object is not iterable"

/-- Whether a Python value is hashable: `state.fields.get(fid)` hashes its
key first, so lists and dicts raise `TypeError: unhashable type`. -/
def pyHashable : PyVal → Bool
  | .list _ => false
  | .dict _ => false
  | _ => true

/-- The `for fid in confirmed_ids` loop of the `confirm_known_fields`
branch.  `state.fields.get(fid)` hashes the id first, so an unhashable id (a
list or dict element of `field_ids`) raises `TypeError`; any other
non-string id is hashable but matches no string key and is skipped. -/
def processConfirmIds :
    List PyVal → List (String × TrackedField) →
    Except String (List PyVal × List UpdateRec × List (String × TrackedField))
  | [], fields => .ok ([], [], fields)
  | fid :: rest, fields =>
    match fid with
    | .list _ => .error "TypeError: unhashable type: list"
    | .dict _ => .error "TypeError: unhashable type: dict"
    | .str s =>
      match fields.lookup s with
      | some field =>
        if field.status = .unconfirmed ∨ field.status = .confirmed
            ∨ field.status = .collected then
          match processConfirmIds rest (setField fields s
              {field with status := .confirmed, validation_error := none}) with
          | .error e => .error e
          | .ok (c, upds, fields1) =>
            .ok (.str s :: c,
              ⟨s, FieldStatus.confirmed.toStr, some field.value, none⟩ :: upds, fields1)
        else processConfirmIds rest fields
      | none => processConfirmIds rest fields
    | _ => processConfirmIds rest fields

/-- `[f.validation_error for f in state.fields.values() if f.validation_error]`. -/
def collectErrors (fields : List (String × TrackedField)) : List PyVal :=
  fields.filterMap fun kv =>
    match kv.2.validation_error with
    | some e => if e = "" then none else some (PyVal.str e)
    | none => none

/-- The per-call loop of `process_tool_calls`, threading the fields dict. -/
def processCalls (lib : PyLib) :
    List ToolCall → List (String × TrackedField) →
    Except String (List (String × String) × List UpdateRec × List (String × TrackedField))
  | [], fields => .ok ([], [], fields)
  | tc :: rest, fields =>
    if tc.name = "extract_application_fields" then
      match tc.input with
      | .dict kvs =>
        match processExtractItems lib kvs fields with
        | .error e => .error e
        | .ok (fu, upds, fields1) =>
          let msg :=
            if !fu.isEmpty then "Accepted fields: " ++ pyStr (.list (fu.map .str))
            else "Validation errors: " ++ pyStr (.list (collectErrors fields1))
          match processCalls lib rest fields1 with
          | .error e => .error e
          | .ok (res, upds2, fields2) => .ok ((tc.id, msg) :: res, upds ++ upds2, fields2)
      | _ => .error "AttributeError: tool input has no attribute items"
    else if tc.name = "confirm_known_fields" then
      match tc.input with
      | .dict kvs =>
        match pyIterate ((kvs.lookup "field_ids").getD (.list [])) with
        | .error e => .error e
        | .ok ids =>
          match processConfirmIds ids fields with
          | .error e => .error e
          | .ok (confirmed, upds, fields1) =>
            match processCalls lib rest fields1 with
            | .error e => .error e
            | .ok (res, upds2, fields2) =>
              .ok ((tc.id, "Confirmed fields: " ++ pyStr (.list confirmed)) :: res,
                upds ++ upds2, fields2)
      | _ => .error "AttributeError: tool input has no attribute get"
    else
      match processCalls lib rest fields with
      | .error e => .error e
      | .ok (res, upds2, fields2) =>
        .ok ((tc.id, "Unknown tool: " ++ tc.name) :: res, upds2, fields2)

/-- `process_tool_calls(tool_calls, state)`: returns the per-call result
strings, the aggregate `updated_fields` list, and the updated state (only
`state.fields` is written). -/
def process_tool_calls (lib : PyLib) (tool_calls : List ToolCall)
    (st : ConversationState) :
    Except String (List (String × String) × List UpdateRec × ConversationState) :=
  match processCalls lib tool_calls st.fields with
  | .error e => .error e
  | .ok (results, upds, fields1) => .ok (results, upds, {st with fields := fields1})

/-!
## Phase transitions and submission (`conversation_service.py`)
-/

/-- The SPOT_CHECK branch of `maybe_advance_phase`. -/
def advanceSpot (st : ConversationState) : Except String ConversationState :=
  if st.phase = .spot_check then
    match unconfirmed_fields st with
    | .error e => .error e
    | .ok u => .ok (if u.isEmpty then {st with phase := .collecting} else st)
  else .ok st

/-- The COLLECTING branch of `maybe_advance_phase`. -/
def advanceCollect (st : ConversationState) : Except String ConversationState :=
  if st.phase = .collecting then
    match all_required_resolved st with
    | .error e => .error e
    | .ok r => .ok (if r then {st with phase := .reviewing} else st)
  else .ok st

/-- The REVIEWING branch of `maybe_advance_phase`: it computes the active
fields and then does `pass`, so its only observable effect is a possible
exception from condition evaluation. -/
def advanceReview (st : ConversationState) : Except String ConversationState :=
  if st.phase = .reviewing then
    match active_fields st with
    | .error e => .error e
    | .ok _ => .ok st
  else .ok st

/-- `maybe_advance_phase(state)`: the three branches run in sequence, each
reading the phase left by the previous one. -/
def maybe_advance_phase (st : ConversationState) : Except String ConversationState :=
  match advanceSpot st with
  | .error e => .error e
  | .ok st1 =>
    match advanceCollect st1 with
    | .error e => .error e
    | .ok st2 => advanceReview st2

/-- The structured outcome of `submit_session` (the Python `"status"` dicts). -/
inductive SubmitResult where
  | already_submitted (field_count : Nat)
  | incomplete (errors : List String) (field_count : Nat)
  | submission_failed (errors : List String) (field_count : Nat)
  | submitted_ok (field_count : Nat) (submitted_at : Nat)

/-- The tail of `submit_session` after the guards: call the eApp collaborator
when a callback URL is set (its outcome is the `eappRes` input, `.error e`
modelling a raised exception), then mark the session submitted. -/
def submitFinish (now : Nat) (eappRes : Except String Unit)
    (st : ConversationState) : SubmitResult × ConversationState :=
  let n := (application_data st).length
  match st.callback_url with
  | some _ =>
    match eappRes with
    | .error e => (.submission_failed [e] n, st)
    | .ok _ => (.submitted_ok n now, {st with phase := .submitted, submitted_at := some now})
  | none => (.submitted_ok n now, {st with phase := .submitted, submitted_at := some now})

/-- `submit_session`, with the current time and the external eApp outcome as
inputs. -/
def submit_session (now : Nat) (eappRes : Except String Unit)
    (st : ConversationState) : Except String (SubmitResult × ConversationState) :=
  if st.phase = .submitted then
    .ok (.already_submitted (application_data st).length, st)
  else if st.phase = .complete ∨ st.phase = .reviewing then
    .ok (submitFinish now eappRes st)
  else
    match missing_required st with
    | .error e => .error e
    | .ok missing =>
      if missing.isEmpty then .ok (submitFinish now eappRes st)
      else
        .ok (.incomplete (missing.map fun f => "Missing required field: " ++ f.label)
          (application_data st).length, st)

/-!
## Turn handling (`conversation_service.py` lines 128–254)

The LLM calls, advisor-tool execution (Retell, CRM and document lookups) and
the follow-up LLM call are external effects that never write the
`ConversationState`; the tool-call list and the final reply text are inputs
standing for the LLM's outputs.  In the terminal-phase branch Python returns
a two-element tuple (no `tool_calls_info`), modelled by
`tool_calls_info = none`.
-/

/-- `ADVISOR_TOOL_NAMES`. -/
def ADVISOR_TOOL_NAMES : List String :=
  ["lookup_crm_client", "lookup_family_members", "lookup_crm_notes",
   "lookup_prior_policies", "lookup_annual_statements", "extract_document_fields",
   "get_advisor_preferences", "get_carrier_suitability", "call_client"]

/-- `TOOL_SOURCE_LABELS`. -/
def TOOL_SOURCE_LABELS : List (String × String) :=
  [("lookup_crm_client", "Redtail CRM"), ("lookup_family_members", "Redtail CRM"),
   ("lookup_crm_notes", "CRM Notes"), ("lookup_prior_policies", "Prior Policies"),
   ("lookup_annual_statements", "Document Store"),
   ("extract_document_fields", "Document Store"),
   ("get_advisor_preferences", "Advisor Preferences"),
   ("get_carrier_suitability", "Suitability Check"), ("call_client", "Client Call")]

/-- Frontend info for one tool call (the externally-parsed `result_data`
payload is display-only and omitted). -/
structure ToolInfo where
  name : String
  source_label : Option String

/-- The tuple returned by `handle_message`. -/
structure TurnOutput where
  reply : String
  updated_fields : List UpdateRec
  tool_calls_info : Option (List ToolInfo)

/-- `handle_message`, as a state transformer: terminal phases short-circuit
with the fixed reply; otherwise the user message is recorded, non-advisor
tool calls are processed, the phase may advance, and the assistant reply is
recorded with the extracted-field map. -/
def handle_message (lib : PyLib) (tool_calls : List ToolCall)
    (reply_text : String) (st : ConversationState) (user_message : String) :
    Except String (TurnOutput × ConversationState) :=
  if st.phase = .complete ∨ st.phase = .submitted then
    .ok ({reply := "This session is already complete.", updated_fields := [],
          tool_calls_info := none}, st)
  else
    match (if (tool_calls.filter fun tc => !ADVISOR_TOOL_NAMES.contains tc.name).isEmpty then
        .ok ([], [], {st with messages := st.messages ++ [⟨.user, user_message, none⟩]})
      else
        process_tool_calls lib (tool_calls.filter fun tc => !ADVISOR_TOOL_NAMES.contains tc.name)
          {st with messages := st.messages ++ [⟨.user, user_message, none⟩]}) with
    | .error e => .error e
    | .ok (_, updated_fields, st2) =>
      match maybe_advance_phase st2 with
      | .error e => .error e
      | .ok st3 =>
        .ok ({reply := reply_text, updated_fields := updated_fields,
              tool_calls_info := some (tool_calls.map fun tc =>
                ToolInfo.mk tc.name (TOOL_SOURCE_LABELS.lookup tc.name))},
          {st3 with messages := st3.messages ++ [⟨.assistant, reply_text,
            if (updated_fields.map fun u => (u.field_id, u.value.getD .null)).isEmpty then none
            else some (updated_fields.map fun u => (u.field_id, u.value.getD .null))⟩]})

/-- One session-mutating operation: an advisor turn (`handle_message`), a raw
voice tool batch (`process_tool_calls` + `maybe_advance_phase`, the
nova-sonic path), or a submission. -/
inductive StepOp where
  | turn (tool_calls : List ToolCall) (reply user_message : String)
  | batch (tool_calls : List ToolCall)
  | submit (now : Nat) (eappRes : Except String Unit)

/-- Run one operation against the session state. -/
def runStep (lib : PyLib) : StepOp → ConversationState → Except String ConversationState
  | .turn tcs reply msg, st =>
    match handle_message lib tcs reply st msg with
    | .error e => .error e
    | .ok (_, st1) => .ok st1
  | .batch tcs, st =>
    match process_tool_calls lib tcs st with
    | .error e => .error e
    | .ok (_, _, st1) => maybe_advance_phase st1
  | .submit now er, st =>
    match submit_session now er st with
    | .error e => .error e
    | .ok (_, st1) => .ok st1

/-- Run a sequence of operations. -/
def runSteps (lib : PyLib) : List StepOp → ConversationState → Except String ConversationState
  | [], st => .ok st
  | op :: rest, st =>
    match runStep lib op st with
    | .error e => .error e
    | .ok st1 => runSteps lib rest st1

/-!
## Pre-fill agent loop (`prefill_agent.py` lines 330–429)

The LLM is abstracted as an oracle from the iteration index to the tool calls
it issues in that iteration (the message history is a function of the
iteration sequence, so this loses no generality for the loop's control flow).
Tool execution (`_execute_tool`) hits external data sources and only feeds
the message history; it never influences which branch the loop takes.
-/

/-- A tool call issued by the pre-fill agent's LLM. -/
structure PrefillCall where
  id : String
  name : String
  input : PyVal

/-- The result dict of `run_prefill_agent`. -/
structure PrefillResult where
  known_data : PyVal
  sources_used : PyVal
  fields_found : PyVal
  summary : PyVal

/-- The fallback result returned when the iteration cap is reached (or the
LLM issues no tool calls) without the terminal tool firing. -/
def prefillFallback : PrefillResult :=
  ⟨.dict [], .list [], .int 0,
   .str "Pre-fill agent was unable to gather data within the allowed iterations."⟩

/-- The payload built from the terminal tool's input via
`terminal_result.get(...)` (a non-dict input would raise). -/
def prefillPayload : PyVal → Except String PrefillResult
  | .dict kvs => .ok
      ⟨(kvs.lookup "known_data").getD (.dict []),
       (kvs.lookup "sources_used").getD (.list []),
       (kvs.lookup "fields_found").getD (.int 0),
       (kvs.lookup "summary").getD (.str "")⟩
  | _ => .error "AttributeError: terminal result has no attribute get"

/-- `terminal_result` after the per-call loop: the input of the last
`report_prefill_results` call of the batch, if any. -/
def lastReportInput (calls : List PrefillCall) : Option PyVal :=
  ((calls.filter fun c => c.name == "report_prefill_results").map fun c => c.input).getLast?

/-- The `for i in range(max_iterations)` loop.  `i` is the iteration index,
`fuel` the remaining iterations.  Note the Python guard `if terminal_result:`
is a truthiness test, so a terminal call whose input is the empty dict does
not stop the loop. -/
def agentLoop (oracle : Nat → List PrefillCall) : Nat → Nat → Except String PrefillResult
  | _, 0 => .ok prefillFallback
  | i, fuel + 1 =>
    let calls := oracle i
    if calls.isEmpty then .ok prefillFallback
    else
      match lastReportInput calls with
      | some inp =>
        if pyTruthy inp then prefillPayload inp
        else agentLoop oracle (i + 1) fuel
      | none => agentLoop oracle (i + 1) fuel

/-- `run_prefill_agent` with its cap of 10 iterations. -/
def run_prefill_agent (oracle : Nat → List PrefillCall) : Except String PrefillResult :=
  agentLoop oracle 0 10

/-- The terminal input that actually stops an iteration: the last
`report_prefill_results` input of the batch, provided it is truthy. -/
def terminalTruthyInput (calls : List PrefillCall) : Option PyVal :=
  match lastReportInput calls with
  | some inp => if pyTruthy inp then some inp else none
  | none => none

/-!
## Concrete instances used by witnesses and counterexamples
-/

/-- Shape check for the default SSN pattern `\d{3}-\d{2}-\d{4}` (full match). -/
def isSSNShape (s : String) : Bool :=
  match s.toList with
  | [a, b, c, d1, d, e, d2, f, g, h, i] =>
    a.isDigit && b.isDigit && c.isDigit && d1 == Char.ofNat 45 && d.isDigit && e.isDigit
      && d2 == Char.ofNat 45 && f.isDigit && g.isDigit && h.isDigit && i.isDigit
  | _ => false

/-- A concrete `re`/`datetime` oracle: every pattern compiles, and only the
default SSN pattern matches anything. -/
def specLib : PyLib :=
  ⟨fun _ => true,
   fun p s => if p = ssnDefaultPattern then isSSNShape s else false,
   fun _ => false⟩

/-- A blank tracked field. -/
def baseField (fid : String) : TrackedField :=
  ⟨fid, .null, .missing, "", "text", false, [], none, none, none⟩

/-- The guarding condition of the spec's `spouse_name` example. -/
def spouseCond : Cond := .compound "AND" [.leaf "marital_status" "eq" (.str "married")]

/-- `marital_status` holding "married" but only UNCONFIRMED (prefilled). -/
def msFieldC9 : TrackedField :=
  {baseField "marital_status" with value := .str "married", status := .unconfirmed}

/-- `spouse_name`, guarded by `spouseCond`. -/
def spFieldC9 : TrackedField := {baseField "spouse_name" with conditions := some [spouseCond]}

/-- A state where the controlling value is set but not confirmed/collected. -/
def stC9 : ConversationState :=
  ⟨.collecting, [("marital_status", msFieldC9), ("spouse_name", spFieldC9)], none, [], none⟩

/-- A COMPLETE session. -/
def stTermC3 : ConversationState := ⟨.complete, [("x", baseField "x")], none, [], none⟩

/-- An SSN field with the default pattern (empty rules dict). -/
def ssnField : TrackedField :=
  {baseField "owner_ssn" with
    label := "Owner SSN", field_type := "ssn", required := true, status := .missing}

/-- A COLLECTING session holding only the SSN field. -/
def stSSN : ConversationState := ⟨.collecting, [("owner_ssn", ssnField)], none, [], none⟩

/-- A REVIEWING session with everything confirmed and no callback URL. -/
def stReviewing : ConversationState :=
  ⟨.reviewing, [("x", {baseField "x" with value := .str "1", status := .confirmed})],
   none, [], none⟩

/-- The same REVIEWING session with a callback URL set. -/
def stReviewCb : ConversationState := {stReviewing with callback_url := some "http://cb"}

/-- A terminal report call carrying data. -/
def reportCallData : PrefillCall :=
  ⟨"t2", "report_prefill_results",
   .dict [("known_data", .dict [("first_name", .str "Ann")]),
          ("sources_used", .list [.str "Redtail CRM"]),
          ("fields_found", .int 1), ("summary", .str "done")]⟩

/-- An agent oracle that looks up the CRM on iteration 0 and reports on
iteration 1. -/
def oracleW : Nat → List PrefillCall := fun n =>
  if n = 0 then [⟨"t1", "lookup_crm_client", .dict [("client_id", .str "c1")]⟩]
  else if n = 1 then [reportCallData]
  else []

/-- An oracle agreeing with `oracleW` through iteration 1 but different
afterwards. -/
def oracleW2 : Nat → List PrefillCall := fun n =>
  if n = 0 then [⟨"t1", "lookup_crm_client", .dict [("client_id", .str "c1")]⟩]
  else if n = 1 then [reportCallData]
  else [⟨"junk", "lookup_crm_client", .dict []⟩]

/-- An oracle that keeps calling the terminal tool with an empty input. -/
def oracleEmptyReport : Nat → List PrefillCall :=
  fun _ => [⟨"t1", "report_prefill_results", .dict []⟩]

/-- Well-formed validation configuration for a field: numeric rule values
under the length/value bound keys, a pattern that is a string compiling as a
regex, and (for select fields) options that carry a `value` key and render a
string label.  These are exactly the configurations under which
`validate_field` cannot raise. -/
def WFRules (lib : PyLib) (f : TrackedField) : Prop :=
  (∀ v, f.validation.lookup "min_length" = some v → (pyToNum v).isSome = true) ∧
  (∀ v, f.validation.lookup "max_length" = some v → (pyToNum v).isSome = true) ∧
  (∀ v, f.validation.lookup "min_value" = some v → (pyToNum v).isSome = true) ∧
  (∀ v, f.validation.lookup "max_value" = some v → (pyToNum v).isSome = true) ∧
  (∀ v, f.validation.lookup "pattern" = some v →
    ∃ p, v = PyVal.str p ∧ lib.reValid p = true) ∧
  (f.field_type = "select" →
    ∀ opts, f.options = some opts → ∀ o, o ∈ opts →
      (∃ vv, o.lookup "value" = some vv) ∧
      (∃ s, (o.lookup "label").getD ((o.lookup "value").getD .null) = PyVal.str s))

/-- Whether an `Except` result is a normal return (no exception). -/
def exceptIsOk : Except String α → Bool
  | .ok _ => true
  | .error _ => false

/-!
## Theorems
-/

theorem evalAny_false_iff (cs : List Cond) (d : List (String × PyVal)) :
    evalAny cs d = .ok false ↔ ∀ c ∈ cs, eval_condition c d = .ok false := by
  induction cs with
  | nil => simp [evalAny]
  | cons c rest ih =>
    simp only [evalAny]
    cases hc : eval_condition c d with
    | error e => simp [hc]
    | ok b => cases b <;> simp [hc, ih]

theorem evalAll_true_iff (cs : List Cond) (d : List (String × PyVal)) :
    evalAll cs d = .ok true ↔ ∀ c ∈ cs, eval_condition c d = .ok true := by
  induction cs with
  | nil => simp [evalAll]
  | cons c rest ih =>
    simp only [evalAll]
    cases hc : eval_condition c d with
    | error e => simp [hc]
    | ok b => cases b <;> simp [hc, ih]

/-- C1: a compound `{operator: NOT, conditions: [...]}` is satisfied iff none
of its children are satisfied (NOR over the child list); with one child this
is negation, and with two or more children the result is false whenever any
child is true (all under the assumption that evaluation returns a value). -/
theorem compound_not_is_nor (cs : List Cond) (d : List (String × PyVal)) (b : Bool)
    (h : eval_condition (.compound "NOT" cs) d = .ok b) :
    b = true ↔ ∀ c ∈ cs, eval_condition c d = .ok false := by
  simp only [eval_condition, reduceIte] at h
  cases ha : evalAny cs d with
  | error e => rw [ha] at h; cases h
  | ok b2 =>
    rw [ha] at h
    have hb : b = !b2 := by cases h; rfl
    constructor
    · intro hb1
      have : b2 = false := by
        cases b2
        · rfl
        · rw [hb1] at hb; cases hb
      rw [this] at ha
      exact (evalAny_false_iff cs d).mp ha
    · intro hall
      have := (evalAny_false_iff cs d).mpr hall
      rw [this] at ha
      cases ha
      simp [hb]

theorem compound_not_is_nor_witness :
    eval_condition (.leaf "x" "eq" (.str "a")) [("x", .str "b")] = .ok false := by
  have h := compound_not_is_nor [.leaf "x" "eq" (.str "a")] [("x", .str "b")] true rfl
  exact h.mp rfl (.leaf "x" "eq" (.str "a")) (by simp)

/-- C10: a field's top-level `conditions` list is a conjunction — with a
`None` or empty list the field is unconditionally active, and a non-empty
list yields `True` iff every condition in it evaluates to `True` against the
current non-null field values. -/
theorem conditions_conjunction_semantics (st : ConversationState) (cs : Option (List Cond)) :
    ((cs = none ∨ cs = some []) → conditions_met st cs = .ok true) ∧
    (∀ b, conditions_met st cs = .ok b →
      (b = true ↔ ∀ l, cs = some l → ∀ c ∈ l, eval_condition c (dataOf st) = .ok true)) := by
  constructor
  · rintro (rfl | rfl) <;> rfl
  · intro b h
    match cs with
    | none =>
      have hb : b = true := by cases h; rfl
      subst hb
      simp
    | some [] =>
      have hb : b = true := by cases h; rfl
      subst hb
      simp [evalAll]
    | some (c :: rest) =>
      simp only [conditions_met, conditions_met_data] at h
      constructor
      · intro hb
        subst hb
        intro l hl
        cases hl
        exact (evalAll_true_iff _ _).mp h
      · intro hall
        have h2 : evalAll (c :: rest) (dataOf st) = .ok true :=
          (evalAll_true_iff _ _).mpr (hall _ rfl)
        rw [h2] at h
        cases h
        rfl

theorem conditions_conjunction_semantics_witness :
    eval_condition spouseCond (dataOf stC9) = .ok true := by
  have h := (conditions_conjunction_semantics stC9 (some [spouseCond])).2 true rfl
  exact h.mp rfl [spouseCond] rfl spouseCond (by simp)

/-- C4 (amended): in the eApp `{field, op}` leaf shape, a missing field
compares against null — `gt`/`gte`/`lt`/`lte` evaluate to false — and a
missing/null expected list for `in`/`not_in` is treated as empty (`in` false,
`not_in` true) without failing.  In the internal `{field_id, operator}`
shape, however, a missing `value` key raises `KeyError` and a null expected
for `in` raises `TypeError` (the original claim's no-failure guarantee does
not extend to that shape). -/
theorem null_and_empty_list_semantics :
    (∀ (field op : String) (ex : PyVal) (d : List (String × PyVal)),
      (op = "gt" ∨ op = "gte" ∨ op = "lt" ∨ op = "lte") →
      d.lookup field = none →
      eval_condition (.leaf field op ex) d = .ok false) ∧
    (∀ (field : String) (d : List (String × PyVal)),
      eval_condition (.leaf field "in" .null) d = .ok false ∧
      eval_condition (.leaf field "not_in" .null) d = .ok true) ∧
    (∀ (fid op : String) (d : List (String × PyVal)),
      eval_condition (.simple fid op none) d = .error "KeyError: value") ∧
    (∀ (fid : String) (d : List (String × PyVal)),
      eval_condition (.simple fid "in" (some .null)) d
        = .error "TypeError: argument is not iterable") := by
  refine ⟨?_, fun field d => ⟨rfl, rfl⟩, fun fid op d => rfl, fun fid d => rfl⟩
  intro field op ex d hop hd
  have hv : dataGet d field = .null := by simp [dataGet, hd]
  rcases hop with rfl | rfl | rfl | rfl <;>
    simp [eval_condition, eval_leaf, hv]

theorem null_and_empty_list_semantics_witness :
    eval_condition (.leaf "age" "gt" (.int 18)) [] = .ok false :=
  null_and_empty_list_semantics.1 "age" "gt" (.int 18) [] (Or.inl rfl) rfl

/-- C4 (counterexample): in the internal `{field_id, operator}` shape an
`in` condition whose `value` key is absent raises `KeyError` instead of
treating the expected list as empty and returning false. -/
theorem simple_in_missing_expected_raises :
    eval_condition (.simple "owner_state" "in" none) [("owner_state", .str "NY")]
      = .error "KeyError: value" ∧
    (Except.error "KeyError: value" : Except String Bool) ≠ .ok false :=
  ⟨rfl, fun h => Except.noConfusion h⟩

/-- C3: once the phase is COMPLETE or SUBMITTED, `handle_message` returns the
fixed "session already complete" reply with an empty update list (and no
tool info) and leaves the state — every field's value, status and
validation_error, and the phase — unchanged. -/
theorem terminal_phase_freezes_input (lib : PyLib) (tcs : List ToolCall)
    (reply : String) (st : ConversationState) (msg : String)
    (h : st.phase = .complete ∨ st.phase = .submitted) :
    handle_message lib tcs reply st msg =
      .ok (⟨"This session is already complete.", [], none⟩, st) := by
  unfold handle_message
  rw [if_pos h]

theorem terminal_phase_freezes_input_witness :
    handle_message specLib [⟨"t1", "extract_application_fields", .dict [("x", .str "v")]⟩]
        "some reply" stTermC3 "hello"
      = .ok (⟨"This session is already complete.", [], none⟩, stTermC3) :=
  terminal_phase_freezes_input _ _ _ _ _ (Or.inl rfl)

theorem activeFieldsAux_mem (data : List (String × PyVal)) :
    ∀ (fl : List (String × TrackedField)) (l : List TrackedField),
      activeFieldsAux data fl = .ok l →
      ∀ f : TrackedField,
        (f ∈ l ↔ ∃ kv, kv ∈ fl ∧ kv.2 = f ∧
          conditions_met_data data f.conditions = .ok true) := by
  intro fl
  induction fl with
  | nil =>
    intro l h f
    injection h with h
    subst h
    simp
  | cons kv rest ih =>
    intro l h f
    simp only [activeFieldsAux] at h
    cases hc : conditions_met_data data kv.2.conditions with
    | error e => rw [hc] at h; cases h
    | ok b =>
      rw [hc] at h
      cases hr : activeFieldsAux data rest with
      | error e => rw [hr] at h; cases h
      | ok l2 =>
        rw [hr] at h
        injection h with h
        subst h
        have ihf := ih l2 hr f
        cases b with
        | true =>
          simp only [reduceIte]
          rw [List.mem_cons]
          constructor
          · rintro (rfl | hf2)
            · exact ⟨kv, List.mem_cons_self _ _, rfl, hc⟩
            · obtain ⟨kv2, hkv2, he, hcm⟩ := ihf.mp hf2
              exact ⟨kv2, List.mem_cons_of_mem _ hkv2, he, hcm⟩
          · rintro ⟨kv2, hkv2, he, hcm⟩
            rcases List.mem_cons.mp hkv2 with rfl | hkv2r
            · left; exact he.symm
            · right; exact ihf.mpr ⟨kv2, hkv2r, he, hcm⟩
        | false =>
          rw [show (if false then kv.2 :: l2 else l2) = l2 from rfl, ihf]
          constructor
          · rintro ⟨kv2, hkv2, he, hcm⟩
            exact ⟨kv2, List.mem_cons_of_mem _ hkv2, he, hcm⟩
          · rintro ⟨kv2, hkv2, he, hcm⟩
            rcases List.mem_cons.mp hkv2 with rfl | hkv2r
            · rw [he] at hc
              rw [hcm] at hc
              cases hc
            · exact ⟨kv2, hkv2r, he, hcm⟩

theorem pyEq_str_right (v : PyVal) (s : String) : pyEq v (.str s) = true ↔ v = .str s := by
  cases v <;> simp [pyEq]

theorem dataGet_eq_str (d : List (String × PyVal)) (k s : String) :
    dataGet d k = .str s ↔ d.lookup k = some (.str s) := by
  cases h : d.lookup k with
  | none => simp [dataGet, h]
  | some v => simp [dataGet, h]

theorem spouseCond_met (data : List (String × PyVal)) :
    conditions_met_data data (some [spouseCond])
      = .ok (pyEq (dataGet data "marital_status") (.str "married")) := by
  cases hpe : pyEq (dataGet data "marital_status") (.str "married") <;>
    simp [conditions_met_data, evalAll, eval_condition, spouseCond, eval_leaf, hpe, reduceIte]

/-- C9 (counterexample): with `marital_status = "married"` held only at
UNCONFIRMED status, the dependent `spouse_name` field is already in
`active_fields()` — activation does not wait for CONFIRMED/COLLECTED. -/
theorem unconfirmed_value_activates_dependent :
    active_fields stC9 = .ok [msFieldC9, spFieldC9] ∧
    msFieldC9.status ≠ FieldStatus.confirmed ∧
    msFieldC9.status ≠ FieldStatus.collected ∧
    spFieldC9.field_id = "spouse_name" :=
  ⟨rfl, by decide, by decide, rfl⟩

/-- C9 (amended): a field guarded by
`{operator:"AND", conditions:[{field:"marital_status", op:"eq",
value:"married"}]}` is in `active_fields()` iff `marital_status` currently
holds the non-null value `"married"` — regardless of that field's status
(an UNCONFIRMED prefilled value already activates it). -/
theorem spouse_activation_value_only (st : ConversationState) (fid : String)
    (f : TrackedField) (l : List TrackedField)
    (hmem : (fid, f) ∈ st.fields)
    (hc : f.conditions = some [spouseCond])
    (ha : active_fields st = .ok l) :
    f ∈ l ↔ (dataOf st).lookup "marital_status" = some (.str "married") := by
  rw [activeFieldsAux_mem (dataOf st) st.fields l ha f]
  constructor
  · rintro ⟨kv, _, rfl, hcm⟩
    rw [hc, spouseCond_met] at hcm
    injection hcm with hcm
    rw [← dataGet_eq_str]
    exact (pyEq_str_right _ _).mp hcm
  · intro hlk
    refine ⟨(fid, f), hmem, rfl, ?_⟩
    rw [hc, spouseCond_met]
    rw [(pyEq_str_right _ _).mpr ((dataGet_eq_str _ _ _).mpr hlk)]

theorem spouse_activation_value_only_witness :
    spFieldC9 ∈ [msFieldC9, spFieldC9] :=
  (spouse_activation_value_only stC9 "spouse_name" spFieldC9 [msFieldC9, spFieldC9]
    (by simp [stC9]) rfl rfl).mpr rfl

theorem process_tool_calls_phase (lib : PyLib) (tcs : List ToolCall)
    (st : ConversationState) (r : List (String × String)) (u : List UpdateRec)
    (st2 : ConversationState) (h : process_tool_calls lib tcs st = .ok (r, u, st2)) :
    st2.phase = st.phase ∧ st2.submitted_at = st.submitted_at ∧
    st2.callback_url = st.callback_url ∧ st2.messages = st.messages := by
  unfold process_tool_calls at h
  cases hp : processCalls lib tcs st.fields with
  | error e => rw [hp] at h; cases h
  | ok t =>
    obtain ⟨a, b, c⟩ := t
    rw [hp] at h
    injection h with h
    simp only [Prod.mk.injEq] at h
    obtain ⟨-, -, rfl⟩ := h
    exact ⟨rfl, rfl, rfl, rfl⟩

theorem rank_le_submitted (p : SessionPhase) :
    p.rank ≤ SessionPhase.rank .submitted := by
  cases p <;> decide

theorem advanceSpot_mono (st st2 : ConversationState) (h : advanceSpot st = .ok st2) :
    st.phase.rank ≤ st2.phase.rank ∧ st2.submitted_at = st.submitted_at := by
  unfold advanceSpot at h
  by_cases hp : st.phase = .spot_check
  · rw [if_pos hp] at h
    cases hu : unconfirmed_fields st with
    | error e => rw [hu] at h; cases h
    | ok u =>
      rw [hu] at h
      injection h with h
      subst h
      cases he : u.isEmpty <;> simp [reduceIte, hp, SessionPhase.rank]
  · rw [if_neg hp] at h
    injection h with h
    subst h
    exact ⟨Nat.le_refl _, rfl⟩

theorem advanceCollect_mono (st st2 : ConversationState)
    (h : advanceCollect st = .ok st2) :
    st.phase.rank ≤ st2.phase.rank ∧ st2.submitted_at = st.submitted_at := by
  unfold advanceCollect at h
  by_cases hp : st.phase = .collecting
  · rw [if_pos hp] at h
    cases hu : all_required_resolved st with
    | error e => rw [hu] at h; cases h
    | ok r =>
      rw [hu] at h
      injection h with h
      subst h
      cases r <;> simp [reduceIte, hp, SessionPhase.rank]
  · rw [if_neg hp] at h
    injection h with h
    subst h
    exact ⟨Nat.le_refl _, rfl⟩

theorem advanceReview_id (st st2 : ConversationState)
    (h : advanceReview st = .ok st2) : st2 = st := by
  unfold advanceReview at h
  by_cases hp : st.phase = .reviewing
  · rw [if_pos hp] at h
    cases ha : active_fields st with
    | error e => rw [ha] at h; cases h
    | ok l =>
      rw [ha] at h
      injection h with h
      exact h.symm
  · rw [if_neg hp] at h
    injection h with h
    exact h.symm

theorem maybe_advance_phase_mono (st st2 : ConversationState)
    (h : maybe_advance_phase st = .ok st2) :
    st.phase.rank ≤ st2.phase.rank ∧ st2.submitted_at = st.submitted_at := by
  unfold maybe_advance_phase at h
  split at h
  · cases h
  · rename_i s1 h1
    split at h
    · cases h
    · rename_i s2 h2
      obtain ⟨m1, a1⟩ := advanceSpot_mono st s1 h1
      obtain ⟨m2, a2⟩ := advanceCollect_mono s1 s2 h2
      rw [advanceReview_id s2 st2 h]
      exact ⟨Nat.le_trans m1 m2, a2.trans a1⟩

theorem submitFinish_snd (now : Nat) (er : Except String Unit) (st : ConversationState) :
    (submitFinish now er st).2 = st ∨
    (submitFinish now er st).2 = {st with phase := .submitted, submitted_at := some now} := by
  rcases hcb : st.callback_url with _ | u <;> rcases er with e | v <;>
    simp [submitFinish, hcb]

theorem submit_session_mono (now : Nat) (er : Except String Unit)
    (st : ConversationState) (r : SubmitResult) (st2 : ConversationState)
    (h : submit_session now er st = .ok (r, st2)) :
    st.phase.rank ≤ st2.phase.rank := by
  unfold submit_session at h
  split at h
  · injection h with h
    simp only [Prod.mk.injEq] at h
    obtain ⟨-, rfl⟩ := h
    exact Nat.le_refl _
  · split at h
    · injection h with h
      have hs : st2 = (submitFinish now er st).2 := by rw [h]
      rcases submitFinish_snd now er st with hfin | hfin <;> rw [hfin] at hs <;> subst hs
      · exact Nat.le_refl _
      · exact rank_le_submitted _
    · split at h
      · cases h
      · split at h
        · injection h with h
          have hs : st2 = (submitFinish now er st).2 := by rw [h]
          rcases submitFinish_snd now er st with hfin | hfin <;> rw [hfin] at hs <;> subst hs
          · exact Nat.le_refl _
          · exact rank_le_submitted _
        · injection h with h
          simp only [Prod.mk.injEq] at h
          obtain ⟨-, rfl⟩ := h
          exact Nat.le_refl _

theorem handle_message_mono (lib : PyLib) (tcs : List ToolCall) (reply : String)
    (st : ConversationState) (msg : String) (out : TurnOutput) (st2 : ConversationState)
    (h : handle_message lib tcs reply st msg = .ok (out, st2)) :
    st.phase.rank ≤ st2.phase.rank := by
  unfold handle_message at h
  split at h
  · injection h with h
    simp only [Prod.mk.injEq] at h
    obtain ⟨-, rfl⟩ := h
    exact Nat.le_refl _
  · split at h
    · cases h
    · rename_i res0 upds0 stp hP
      have hphase : stp.phase = st.phase := by
        split at hP
        · injection hP with hP
          simp only [Prod.mk.injEq] at hP
          obtain ⟨-, -, rfl⟩ := hP
          rfl
        · exact (process_tool_calls_phase _ _ _ _ _ _ hP).1
      split at h
      · cases h
      · rename_i st3 hM
        injection h with h
        simp only [Prod.mk.injEq] at h
        obtain ⟨-, rfl⟩ := h
        have hm2 := (maybe_advance_phase_mono stp st3 hM).1
        rw [hphase] at hm2
        exact hm2

theorem runStep_mono (lib : PyLib) (op : StepOp) (st st2 : ConversationState)
    (h : runStep lib op st = .ok st2) : st.phase.rank ≤ st2.phase.rank := by
  cases op with
  | turn tcs reply msg =>
    simp only [runStep] at h
    cases hh : handle_message lib tcs reply st msg with
    | error e => rw [hh] at h; cases h
    | ok t =>
      obtain ⟨out, st3⟩ := t
      rw [hh] at h
      injection h with h
      subst h
      exact handle_message_mono lib tcs reply st msg out st3 hh
  | batch tcs =>
    simp only [runStep] at h
    cases hp : process_tool_calls lib tcs st with
    | error e => rw [hp] at h; cases h
    | ok t =>
      obtain ⟨r, u, st1⟩ := t
      rw [hp] at h
      have h1 := (process_tool_calls_phase lib tcs st r u st1 hp).1
      have h2 := (maybe_advance_phase_mono st1 st2 h).1
      rw [h1] at h2
      exact h2
  | submit now er =>
    simp only [runStep] at h
    cases hs : submit_session now er st with
    | error e => rw [hs] at h; cases h
    | ok t =>
      obtain ⟨r, st3⟩ := t
      rw [hs] at h
      injection h with h
      subst h
      exact submit_session_mono now er st r st3 hs

/-- C2: over any sequence of processed tool-call batches — advisor turns,
raw voice batches, and submissions — the session phase never regresses under
the total order SPOT_CHECK < COLLECTING < REVIEWING < COMPLETE < SUBMITTED. -/
theorem phase_never_regresses (lib : PyLib) (ops : List StepOp) :
    ∀ (st st2 : ConversationState), runSteps lib ops st = .ok st2 →
      st.phase.rank ≤ st2.phase.rank := by
  induction ops with
  | nil =>
    intro st st2 h
    injection h with h
    subst h
    exact Nat.le_refl _
  | cons op rest ih =>
    intro st st2 h
    simp only [runSteps] at h
    cases h1 : runStep lib op st with
    | error e => rw [h1] at h; cases h
    | ok st1 =>
      rw [h1] at h
      exact Nat.le_trans (runStep_mono lib op st st1 h1) (ih st1 st2 h)

theorem phase_never_regresses_witness :
    SessionPhase.rank stReviewing.phase ≤
      SessionPhase.rank
        ({stReviewing with phase := .submitted, submitted_at := some 7} :
          ConversationState).phase :=
  phase_never_regresses specLib [.submit 7 (.ok ())] stReviewing _ rfl

/-- C7: (i) if the eApp collaborator raises during submit (callback URL set),
the session is left exactly as it was — the phase does not advance to
SUBMITTED and `submitted_at` stays unset, so a retry is safe; (ii) whenever a
submit changes `submitted_at`, it is the moment the phase becomes SUBMITTED
from a non-SUBMITTED phase and the stamp is the current time; (iii) a second
submit of an already-SUBMITTED session returns `already_submitted` and
changes nothing; (iv, v) tool-call processing and phase advancement never
touch `submitted_at`, so it is set exactly once. -/
theorem submit_failure_no_advance_and_once :
    (∀ (now : Nat) (e : String) (st : ConversationState) (r : SubmitResult)
        (st2 : ConversationState),
      st.callback_url.isSome = true → st.phase ≠ .submitted →
      submit_session now (.error e) st = .ok (r, st2) → st2 = st) ∧
    (∀ (now : Nat) (er : Except String Unit) (st : ConversationState) (r : SubmitResult)
        (st2 : ConversationState),
      submit_session now er st = .ok (r, st2) →
      st2.submitted_at ≠ st.submitted_at →
      st2.phase = .submitted ∧ st.phase ≠ .submitted ∧ st2.submitted_at = some now) ∧
    (∀ (now : Nat) (er : Except String Unit) (st : ConversationState),
      st.phase = .submitted →
      submit_session now er st = .ok (.already_submitted (application_data st).length, st)) ∧
    (∀ (lib : PyLib) (tcs : List ToolCall) (st : ConversationState)
        (r : List (String × String)) (u : List UpdateRec) (st2 : ConversationState),
      process_tool_calls lib tcs st = .ok (r, u, st2) →
      st2.submitted_at = st.submitted_at) ∧
    (∀ (st st2 : ConversationState), maybe_advance_phase st = .ok st2 →
      st2.submitted_at = st.submitted_at) := by
  refine ⟨?_, ?_, ?_, ?_, ?_⟩
  · intro now e st r st2 hcb hns h
    obtain ⟨u, hu⟩ := Option.isSome_iff_exists.mp hcb
    have hfin : submitFinish now (.error e) st
        = (.submission_failed [e] (application_data st).length, st) := by
      simp [submitFinish, hu]
    unfold submit_session at h
    rw [if_neg hns] at h
    split at h
    · rw [hfin] at h
      injection h with h
      simp only [Prod.mk.injEq] at h
      exact h.2.symm
    · split at h
      · cases h
      · split at h
        · rw [hfin] at h
          injection h with h
          simp only [Prod.mk.injEq] at h
          exact h.2.symm
        · injection h with h
          simp only [Prod.mk.injEq] at h
          exact h.2.symm
  · intro now er st r st2 h hch
    unfold submit_session at h
    split at h
    · injection h with h
      simp only [Prod.mk.injEq] at h
      obtain ⟨-, rfl⟩ := h
      exact absurd rfl hch
    · rename_i h1
      split at h
      · injection h with h
        have hs : st2 = (submitFinish now er st).2 := by rw [h]
        rcases submitFinish_snd now er st with hf | hf
        · rw [hf] at hs; subst hs; exact absurd rfl hch
        · rw [hf] at hs; subst hs; exact ⟨rfl, h1, rfl⟩
      · split at h
        · cases h
        · split at h
          · injection h with h
            have hs : st2 = (submitFinish now er st).2 := by rw [h]
            rcases submitFinish_snd now er st with hf | hf
            · rw [hf] at hs; subst hs; exact absurd rfl hch
            · rw [hf] at hs; subst hs; exact ⟨rfl, h1, rfl⟩
          · injection h with h
            simp only [Prod.mk.injEq] at h
            obtain ⟨-, rfl⟩ := h
            exact absurd rfl hch
  · intro now er st h1
    unfold submit_session
    rw [if_pos h1]
  · intro lib tcs st r u st2 h
    exact (process_tool_calls_phase lib tcs st r u st2 h).2.1
  · intro st st2 h
    exact (maybe_advance_phase_mono st st2 h).2

theorem submit_failure_no_advance_and_once_witness :
    stReviewCb = stReviewCb ∧
    submit_session 3 (Except.ok ()) {stReviewCb with phase := .submitted}
      = .ok (.already_submitted 1, {stReviewCb with phase := .submitted}) :=
  ⟨submit_failure_no_advance_and_once.1 7 "boom" stReviewCb
      (.submission_failed ["boom"] 1) stReviewCb rfl (by decide) rfl,
   submit_failure_no_advance_and_once.2.2.1 3 (Except.ok ()) _ rfl⟩

theorem agentLoop_step (oracle : Nat → List PrefillCall) (i f : Nat)
    (hne : (oracle i).isEmpty = false)
    (hnt : terminalTruthyInput (oracle i) = none) :
    agentLoop oracle i (f + 1) = agentLoop oracle (i + 1) f := by
  simp only [agentLoop, hne, Bool.false_eq_true, if_false]
  unfold terminalTruthyInput at hnt
  cases hlr : lastReportInput (oracle i) with
  | none => simp [hlr]
  | some inp2 =>
    rw [hlr] at hnt
    cases htr : pyTruthy inp2 with
    | true => simp [htr] at hnt
    | false => simp [hlr, htr]

theorem agentLoop_reaches (oracle : Nat → List PrefillCall) :
    ∀ (fuel k i : Nat) (inp : PyVal), k < fuel →
      (∀ j, j < k → (oracle (i + j)).isEmpty = false ∧
        terminalTruthyInput (oracle (i + j)) = none) →
      terminalTruthyInput (oracle (i + k)) = some inp →
      agentLoop oracle i fuel = prefillPayload inp := by
  intro fuel
  induction fuel with
  | zero => intro k i inp hk; exact absurd hk (Nat.not_lt_zero k)
  | succ f ih =>
    intro k i inp hk hpre hterm
    cases k with
    | zero =>
      rw [Nat.add_zero] at hterm
      unfold terminalTruthyInput at hterm
      cases hlr : lastReportInput (oracle i) with
      | none => rw [hlr] at hterm; simp at hterm
      | some inp2 =>
        rw [hlr] at hterm
        cases htr : pyTruthy inp2 with
        | false => simp [htr] at hterm
        | true =>
          simp [htr] at hterm
          subst hterm
          have hne : (oracle i).isEmpty = false := by
            cases ho : oracle i with
            | nil => rw [ho] at hlr; simp [lastReportInput] at hlr
            | cons a l => rfl
          simp only [agentLoop, hne, Bool.false_eq_true, if_false]
          simp [hlr, htr]
    | succ k2 =>
      obtain ⟨hne, hnt⟩ := hpre 0 (Nat.succ_pos k2)
      rw [Nat.add_zero] at hne hnt
      rw [agentLoop_step oracle i f hne hnt]
      apply ih k2 (i + 1) inp
      · omega
      · intro j hj
        have hh := hpre (j + 1) (by omega)
        rwa [show i + (j + 1) = i + 1 + j by omega] at hh
      · rwa [show i + 1 + k2 = i + (k2 + 1) by omega]

theorem agentLoop_fallback (oracle : Nat → List PrefillCall) :
    ∀ (fuel i : Nat),
      (∀ j, j < fuel → (oracle (i + j)).isEmpty = false ∧
        terminalTruthyInput (oracle (i + j)) = none) →
      agentLoop oracle i fuel = .ok prefillFallback := by
  intro fuel
  induction fuel with
  | zero => intro i _; rfl
  | succ f ih =>
    intro i h
    obtain ⟨hne, hnt⟩ := h 0 (Nat.succ_pos f)
    rw [Nat.add_zero] at hne hnt
    rw [agentLoop_step oracle i f hne hnt]
    apply ih (i + 1)
    intro j hj
    have hh := h (j + 1) (by omega)
    rwa [show i + (j + 1) = i + 1 + j by omega] at hh

/-- C8 (amended): the loop (cap 10) stops in the first iteration whose batch
contains a `report_prefill_results` call with a *truthy* (non-empty) input —
returning that call's payload (`known_data`, `sources_used`, `fields_found`,
`summary`, with defaults for missing keys) without consulting any later
iteration (any oracle agreeing up to that iteration yields the same result) —
and if all 10 iterations pass without such a call (each issuing at least one
tool call), it returns the empty result set with the diagnostic summary
rather than failing.  A report call with an empty dict input does *not* stop
the loop (see the counterexample). -/
theorem prefill_loop_stops_on_truthy_report :
    (∀ (oracle oracle2 : Nat → List PrefillCall) (k : Nat) (inp : PyVal),
      k < 10 →
      (∀ j, j ≤ k → oracle2 j = oracle j) →
      (∀ j, j < k → (oracle j).isEmpty = false ∧ terminalTruthyInput (oracle j) = none) →
      terminalTruthyInput (oracle k) = some inp →
      run_prefill_agent oracle = prefillPayload inp ∧
      run_prefill_agent oracle2 = prefillPayload inp) ∧
    (∀ oracle : Nat → List PrefillCall,
      (∀ j, j < 10 → (oracle j).isEmpty = false ∧ terminalTruthyInput (oracle j) = none) →
      run_prefill_agent oracle = .ok prefillFallback) := by
  constructor
  · intro oracle oracle2 k inp hk hag hpre hterm
    constructor
    · apply agentLoop_reaches oracle 10 k 0 inp hk
      · intro j hj
        have hh := hpre j hj
        rwa [Nat.zero_add]
      · rwa [Nat.zero_add]
    · apply agentLoop_reaches oracle2 10 k 0 inp hk
      · intro j hj
        rw [Nat.zero_add, hag j (le_of_lt hj)]
        exact hpre j hj
      · rw [Nat.zero_add, hag k (le_refl k)]
        exact hterm
  · intro oracle h
    apply agentLoop_fallback oracle 10 0
    intro j hj
    rw [Nat.zero_add]
    exact h j hj

theorem prefill_loop_stops_on_truthy_report_witness :
    run_prefill_agent oracleW
      = .ok ⟨.dict [("first_name", .str "Ann")], .list [.str "Redtail CRM"],
             .int 1, .str "done"⟩ ∧
    run_prefill_agent oracleW2
      = .ok ⟨.dict [("first_name", .str "Ann")], .list [.str "Redtail CRM"],
             .int 1, .str "done"⟩ :=
  prefill_loop_stops_on_truthy_report.1 oracleW oracleW2 1
    (.dict [("known_data", .dict [("first_name", .str "Ann")]),
            ("sources_used", .list [.str "Redtail CRM"]),
            ("fields_found", .int 1), ("summary", .str "done")])
    (by omega)
    (by intro j hj; interval_cases j <;> rfl)
    (by intro j hj; interval_cases j; exact ⟨rfl, rfl⟩)
    rfl

/-- C8 (counterexample): an oracle that calls the terminal
`report_prefill_results` tool with `{}` in every iteration — the loop does
not stop at that call's iteration and does not return its payload (which
would have `summary = ""`); it runs to the cap and returns the diagnostic
fallback. -/
theorem prefill_empty_report_not_terminal :
    run_prefill_agent oracleEmptyReport = .ok prefillFallback ∧
    prefillPayload (.dict []) = .ok ⟨.dict [], .list [], .int 0, .str ""⟩ ∧
    prefillFallback.summary ≠ PyVal.str "" := by
  refine ⟨rfl, rfl, fun h => ?_⟩
  injection h with h
  simp at h

theorem setField_lookup_self (fields : List (String × TrackedField)) (fid : String)
    (f g : TrackedField) (h : fields.lookup fid = some g) :
    (setField fields fid f).lookup fid = some f := by
  induction fields with
  | nil => simp [List.lookup] at h
  | cons kv rest ih =>
    obtain ⟨k1, v1⟩ := kv
    by_cases hq : fid = k1
    · subst hq
      simp only [setField]
      simp [List.lookup]
    · have hknef : ¬(k1 = fid) := fun hh => hq hh.symm
      have hb : (fid == k1) = false := beq_eq_false_iff_ne.mpr hq
      simp only [setField, if_neg hknef]
      simp only [List.lookup, hb] at h ⊢
      exact ih h

theorem setField_lookup_ne (fields : List (String × TrackedField)) (fid k : String)
    (f : TrackedField) (hne : k ≠ fid) :
    (setField fields fid f).lookup k = fields.lookup k := by
  induction fields with
  | nil => rfl
  | cons kv rest ih =>
    obtain ⟨k1, v1⟩ := kv
    by_cases hk : k1 = fid
    · subst hk
      simp only [setField]
      have hb : (k == k1) = false := beq_eq_false_iff_ne.mpr hne
      simp only [if_true, List.lookup, hb]
      exact ih
    · simp only [setField, if_neg hk, List.lookup]
      by_cases hq : k = k1
      · have hb : (k == k1) = true := beq_iff_eq.mpr hq
        simp only [hb]
      · have hb : (k == k1) = false := beq_eq_false_iff_ne.mpr hq
        simp only [hb]
        exact ih

theorem processExtractItems_preserve (lib : PyLib) (fid : String) :
    ∀ (items : List (String × PyVal)) (fields : List (String × TrackedField))
      (fu : List String) (upds : List UpdateRec) (fields2 : List (String × TrackedField)),
      fid ∉ items.map Prod.fst →
      processExtractItems lib items fields = .ok (fu, upds, fields2) →
      fields2.lookup fid = fields.lookup fid := by
  intro items
  induction items with
  | nil =>
    intro fields fu upds fields2 _ h
    injection h with h
    simp only [Prod.mk.injEq] at h
    obtain ⟨-, -, rfl⟩ := h
    rfl
  | cons kv rest ih =>
    obtain ⟨k, w⟩ := kv
    intro fields fu upds fields2 hnin h
    simp only [List.map_cons, List.mem_cons, not_or] at hnin
    obtain ⟨hne, hnin2⟩ := hnin
    simp only [processExtractItems] at h
    split at h
    · exact ih fields fu upds fields2 hnin2 h
    · split at h
      · exact ih fields fu upds fields2 hnin2 h
      · rename_i field hlk2
        split at h
        · cases h
        · rename_i pr hval2
          split at h
          · cases h
          · rename_i fu2 upds2 fields3 hrec
            injection h with h
            simp only [Prod.mk.injEq] at h
            obtain ⟨-, -, rfl⟩ := h
            rw [ih _ _ _ _ hnin2 hrec]
            exact setField_lookup_ne fields k fid _ hne
        · rename_i err2 hval2
          split at h
          · cases h
          · rename_i fu2 upds2 fields3 hrec
            injection h with h
            simp only [Prod.mk.injEq] at h
            obtain ⟨-, -, rfl⟩ := h
            rw [ih _ _ _ _ hnin2 hrec]
            exact setField_lookup_ne fields k fid _ hne

theorem processExtractItems_failure (lib : PyLib) (fid : String) (v : PyVal)
    (f : TrackedField) (err : String) :
    ∀ (items : List (String × PyVal)) (fields : List (String × TrackedField))
      (fu : List String) (upds : List UpdateRec) (fields2 : List (String × TrackedField)),
      (fid, v) ∈ items → (items.map Prod.fst).Nodup → v.isNull = false →
      fields.lookup fid = some f →
      validate_field lib f v = .ok (false, some err) →
      processExtractItems lib items fields = .ok (fu, upds, fields2) →
      fields2.lookup fid = some {f with validation_error := some err} ∧
      (⟨fid, f.status.toStr, none, some err⟩ : UpdateRec) ∈ upds := by
  intro items
  induction items with
  | nil =>
    intro fields fu upds fields2 hmem
    cases hmem
  | cons kv rest ih =>
    obtain ⟨k, w⟩ := kv
    intro fields fu upds fields2 hmem hnd hvn hlk hval h
    rw [List.map_cons] at hnd
    obtain ⟨hk_notin, hnd2⟩ := List.nodup_cons.mp hnd
    rcases List.mem_cons.mp hmem with heq | hmem2
    · cases heq
      simp only [processExtractItems, hvn, Bool.false_eq_true, if_false] at h
      simp only [hlk] at h
      simp only [hval] at h
      split at h
      · cases h
      · rename_i fu2 upds2 fields3 hrec
        injection h with h
        simp only [Prod.mk.injEq] at h
        obtain ⟨-, h2, rfl⟩ := h
        constructor
        · rw [processExtractItems_preserve lib fid rest _ _ _ _ hk_notin hrec]
          exact setField_lookup_self fields fid _ f hlk
        · rw [← h2]
          exact List.mem_cons_self _ _
    · have hfid_mem : fid ∈ rest.map Prod.fst := by
        have := List.mem_map_of_mem Prod.fst hmem2
        simpa using this
      have hkne : k ≠ fid := fun hh => hk_notin (hh ▸ hfid_mem)
      simp only [processExtractItems] at h
      split at h
      · exact ih fields fu upds fields2 hmem2 hnd2 hvn hlk hval h
      · split at h
        · exact ih fields fu upds fields2 hmem2 hnd2 hvn hlk hval h
        · rename_i field hlk2
          split at h
          · cases h
          · rename_i pr hval2
            split at h
            · cases h
            · rename_i fu2 upds2 fields3 hrec
              injection h with h
              simp only [Prod.mk.injEq] at h
              obtain ⟨-, h2, rfl⟩ := h
              have hnew : (setField fields k
                  {field with
                    value := w, status := .collected, validation_error := none}).lookup fid
                  = some f := by
                rw [setField_lookup_ne fields k fid _ (fun hh => hkne hh.symm)]
                exact hlk
              obtain ⟨ha, hb⟩ := ih _ fu2 upds2 fields3 hmem2 hnd2 hvn hnew hval hrec
              refine ⟨ha, ?_⟩
              rw [← h2]
              exact List.mem_cons_of_mem _ hb
          · rename_i err2 hval2
            split at h
            · cases h
            · rename_i fu2 upds2 fields3 hrec
              injection h with h
              simp only [Prod.mk.injEq] at h
              obtain ⟨-, h2, rfl⟩ := h
              have hnew : (setField fields k
                  {field with validation_error := err2}).lookup fid = some f := by
                rw [setField_lookup_ne fields k fid _ (fun hh => hkne hh.symm)]
                exact hlk
              obtain ⟨ha, hb⟩ := ih _ fu2 upds2 fields3 hmem2 hnd2 hvn hnew hval hrec
              refine ⟨ha, ?_⟩
              rw [← h2]
              exact List.mem_cons_of_mem _ hb

/-- C5: for an `extract_application_fields` tool call, every field of its
input whose (non-null) value fails validation gets its `validation_error` set
to the validator's message while its status and value stay exactly as they
were before the call; the emitted update record carries the unchanged status
string and the validation error (and no value); and the processor leaves the
session phase untouched. -/
theorem extract_failure_sets_error_only (lib : PyLib) (tcid : String)
    (kvs : List (String × PyVal)) (st : ConversationState)
    (res : List (String × String)) (upds : List UpdateRec) (st2 : ConversationState)
    (fid : String) (v : PyVal) (f : TrackedField) (err : String)
    (h : process_tool_calls lib [⟨tcid, "extract_application_fields", .dict kvs⟩] st
      = .ok (res, upds, st2))
    (hmem : (fid, v) ∈ kvs) (hnd : (kvs.map Prod.fst).Nodup)
    (hvn : v.isNull = false)
    (hlk : st.fields.lookup fid = some f)
    (hval : validate_field lib f v = .ok (false, some err)) :
    st2.fields.lookup fid = some {f with validation_error := some err} ∧
    (⟨fid, f.status.toStr, none, some err⟩ : UpdateRec) ∈ upds ∧
    st2.phase = st.phase := by
  unfold process_tool_calls at h
  split at h
  · cases h
  · rename_i res1 upds1 fields1 hpc
    injection h with h
    simp only [Prod.mk.injEq] at h
    obtain ⟨-, h2, h3⟩ := h
    subst h2
    subst h3
    simp only [processCalls, reduceIte] at hpc
    split at hpc
    · cases hpc
    · rename_i fu upds2 fields2 hext
      injection hpc with hpc
      simp only [Prod.mk.injEq] at hpc
      obtain ⟨-, h4, h5⟩ := hpc
      obtain ⟨ha, hb⟩ := processExtractItems_failure lib fid v f err kvs st.fields
        fu upds2 fields2 hmem hnd hvn hlk hval hext
      refine ⟨?_, ?_, rfl⟩
      · rw [h5] at ha
        exact ha
      · rw [← h4]
        simpa using hb

theorem extract_failure_sets_error_only_witness :
    ({stSSN with
      fields := [("owner_ssn", {ssnField with
        validation_error := some "Owner SSN must be in format XXX-XX-XXXX."})]} :
      ConversationState).fields.lookup "owner_ssn"
      = some {ssnField with
          validation_error := some "Owner SSN must be in format XXX-XX-XXXX."} ∧
    (⟨"owner_ssn", FieldStatus.missing.toStr, none,
      some "Owner SSN must be in format XXX-XX-XXXX."⟩ : UpdateRec) ∈
      [(⟨"owner_ssn", FieldStatus.missing.toStr, none,
        some "Owner SSN must be in format XXX-XX-XXXX."⟩ : UpdateRec)] ∧
    ({stSSN with
      fields := [("owner_ssn", {ssnField with
        validation_error := some "Owner SSN must be in format XXX-XX-XXXX."})]} :
      ConversationState).phase = stSSN.phase :=
  extract_failure_sets_error_only specLib "t1" [("owner_ssn", .str "12345")] stSSN
    [("t1", "Validation errors: "
      ++ pyStr (.list [.str "Owner SSN must be in format XXX-XX-XXXX."]))]
    [⟨"owner_ssn", FieldStatus.missing.toStr, none,
      some "Owner SSN must be in format XXX-XX-XXXX."⟩]
    {stSSN with
      fields := [("owner_ssn", {ssnField with
        validation_error := some "Owner SSN must be in format XXX-XX-XXXX."})]}
    "owner_ssn" (.str "12345") ssnField "Owner SSN must be in format XXX-XX-XXXX."
    rfl (by simp) (by simp) rfl rfl rfl

theorem lookup_mem : ∀ (l : List (String × TrackedField)) (k : String) (f : TrackedField),
    l.lookup k = some f → (k, f) ∈ l := by
  intro l
  induction l with
  | nil => intro k f h; simp [List.lookup] at h
  | cons kv rest ih =>
    obtain ⟨k1, v1⟩ := kv
    intro k f h
    by_cases hq : k = k1
    · subst hq
      simp only [List.lookup, beq_self_eq_true] at h
      injection h with h
      subst h
      exact List.mem_cons_self _ _
    · have hb : (k == k1) = false := beq_eq_false_iff_ne.mpr hq
      simp only [List.lookup, hb] at h
      exact List.mem_cons_of_mem _ (ih k f h)

theorem boundCmp_total (n : Int) (v : PyVal) (h : (pyToNum v).isSome = true) :
    ∃ c, boundCmp n v = .ok c := by
  unfold boundCmp
  cases hv : pyToNum v with
  | none => rw [hv] at h; cases h
  | some m => exact ⟨compare n m, by simp [hv]⟩

theorem checkMinLength_total (field : TrackedField) (s : String)
    (validation : List (String × PyVal))
    (h : ∀ v, validation.lookup "min_length" = some v → (pyToNum v).isSome = true) :
    ∃ r, checkMinLength field s validation = .ok r := by
  unfold checkMinLength
  cases hl : validation.lookup "min_length" with
  | none => exact ⟨none, rfl⟩
  | some v =>
    obtain ⟨c, hc⟩ := boundCmp_total (s.length : Int) v (h v hl)
    simp only [hc]
    split <;> exact ⟨_, rfl⟩

theorem checkMaxLength_total (field : TrackedField) (s : String)
    (validation : List (String × PyVal))
    (h : ∀ v, validation.lookup "max_length" = some v → (pyToNum v).isSome = true) :
    ∃ r, checkMaxLength field s validation = .ok r := by
  unfold checkMaxLength
  cases hl : validation.lookup "max_length" with
  | none => exact ⟨none, rfl⟩
  | some v =>
    obtain ⟨c, hc⟩ := boundCmp_total (s.length : Int) v (h v hl)
    simp only [hc]
    split <;> exact ⟨_, rfl⟩

theorem checkMinValue_total (field : TrackedField) (n : Int)
    (validation : List (String × PyVal))
    (h : ∀ v, validation.lookup "min_value" = some v → (pyToNum v).isSome = true) :
    ∃ r, checkMinValue field n validation = .ok r := by
  unfold checkMinValue
  cases hl : validation.lookup "min_value" with
  | none => exact ⟨none, rfl⟩
  | some v =>
    obtain ⟨c, hc⟩ := boundCmp_total n v (h v hl)
    simp only [hc]
    split <;> exact ⟨_, rfl⟩

theorem checkMaxValue_total (field : TrackedField) (n : Int)
    (validation : List (String × PyVal))
    (h : ∀ v, validation.lookup "max_value" = some v → (pyToNum v).isSome = true) :
    ∃ r, checkMaxValue field n validation = .ok r := by
  unfold checkMaxValue
  cases hl : validation.lookup "max_value" with
  | none => exact ⟨none, rfl⟩
  | some v =>
    obtain ⟨c, hc⟩ := boundCmp_total n v (h v hl)
    simp only [hc]
    split <;> exact ⟨_, rfl⟩

theorem checkPattern_total (lib : PyLib) (field : TrackedField) (s : String)
    (validation : List (String × PyVal))
    (h : ∀ v, validation.lookup "pattern" = some v →
      ∃ p, v = PyVal.str p ∧ lib.reValid p = true) :
    ∃ r, checkPattern lib field s validation = .ok r := by
  unfold checkPattern
  cases hl : validation.lookup "pattern" with
  | none => exact ⟨none, rfl⟩
  | some v =>
    obtain ⟨p, rfl, hvp⟩ := h v hl
    simp only [fullmatchVal, PyLib.fullmatch, hvp, if_true]
    split <;> exact ⟨_, rfl⟩

theorem andCheck_total (a : Except String (Option String))
    (b : Unit → Except String (Option String))
    (ha : ∃ r, a = .ok r) (hb : ∃ r, b () = .ok r) :
    ∃ r, andCheck a b = .ok r := by
  obtain ⟨r1, h1⟩ := ha
  cases r1 with
  | none =>
    obtain ⟨r2, h2⟩ := hb
    exact ⟨r2, by simp [andCheck, h1, h2]⟩
  | some m => exact ⟨some m, by simp [andCheck, h1]⟩

theorem validateText_total (lib : PyLib) (field : TrackedField) (value : PyVal)
    (validation : List (String × PyVal))
    (h1 : ∀ v, validation.lookup "min_length" = some v → (pyToNum v).isSome = true)
    (h2 : ∀ v, validation.lookup "max_length" = some v → (pyToNum v).isSome = true)
    (h5 : ∀ v, validation.lookup "pattern" = some v →
      ∃ p, v = PyVal.str p ∧ lib.reValid p = true) :
    ∃ r, validateText lib field value validation = .ok r := by
  unfold validateText
  exact andCheck_total _ _ (checkMinLength_total field (pyStr value) validation h1)
    (andCheck_total _ _ (checkMaxLength_total field (pyStr value) validation h2)
      (checkPattern_total lib field (pyStr value) validation h5))

theorem validateEmail_total (lib : PyLib) (field : TrackedField) (value : PyVal)
    (validation : List (String × PyVal))
    (h1 : ∀ v, validation.lookup "min_length" = some v → (pyToNum v).isSome = true)
    (h2 : ∀ v, validation.lookup "max_length" = some v → (pyToNum v).isSome = true)
    (h5 : ∀ v, validation.lookup "pattern" = some v →
      ∃ p, v = PyVal.str p ∧ lib.reValid p = true) :
    ∃ r, validateEmail lib field value validation = .ok r := by
  unfold validateEmail
  split
  · exact validateText_total lib field value validation h1 h2 h5
  · exact ⟨_, rfl⟩

theorem validatePhone_total (lib : PyLib) (field : TrackedField) (value : PyVal)
    (validation : List (String × PyVal))
    (h5 : ∀ v, validation.lookup "pattern" = some v →
      ∃ p, v = PyVal.str p ∧ lib.reValid p = true) :
    ∃ r, validatePhone lib field value validation = .ok r := by
  unfold validatePhone
  cases hl : validation.lookup "pattern" with
  | some v =>
    obtain ⟨p, rfl, hvp⟩ := h5 v hl
    simp only [fullmatchVal, PyLib.fullmatch, hvp, if_true]
    split <;> exact ⟨_, rfl⟩
  | none =>
    by_cases hd : ((List.filter Char.isDigit (pyStr value).data).length < 10)
    · exact ⟨some (field.label ++ " must have at least 10 digits."), by simp [hd]⟩
    · exact ⟨none, by simp [hd]⟩

theorem validateSsn_total (lib : PyLib) (field : TrackedField) (value : PyVal)
    (validation : List (String × PyVal))
    (h5 : ∀ v, validation.lookup "pattern" = some v →
      ∃ p, v = PyVal.str p ∧ lib.reValid p = true) :
    ∃ r, validateSsn lib field value validation = .ok r := by
  unfold validateSsn
  cases hl : validation.lookup "pattern" with
  | some v =>
    obtain ⟨p, rfl, hvp⟩ := h5 v hl
    simp only [fullmatchVal, PyLib.fullmatch, hvp, if_true]
    split <;> exact ⟨_, rfl⟩
  | none =>
    cases hm : lib.reMatch ssnDefaultPattern (pyStr value)
    · exact ⟨some (field.label ++ " must be in format XXX-XX-XXXX."), by simp [hm]⟩
    · exact ⟨none, by simp [hm]⟩

theorem validateNumber_total (field : TrackedField) (value : PyVal)
    (validation : List (String × PyVal))
    (h3 : ∀ v, validation.lookup "min_value" = some v → (pyToNum v).isSome = true)
    (h4 : ∀ v, validation.lookup "max_value" = some v → (pyToNum v).isSome = true) :
    ∃ r, validateNumber field value validation = .ok r := by
  unfold validateNumber
  cases hc : pyFloatCast value with
  | none => exact ⟨some (field.label ++ " must be a number."), rfl⟩
  | some n =>
    exact andCheck_total _ _ (checkMinValue_total field n validation h3)
      (checkMaxValue_total field n validation h4)

theorem optionValues_total :
    ∀ (opts : List (List (String × PyVal))),
      (∀ o ∈ opts, ∃ vv, o.lookup "value" = some vv) →
      ∃ vs, optionValues opts = .ok vs := by
  intro opts
  induction opts with
  | nil => intro _; exact ⟨[], rfl⟩
  | cons o rest ih =>
    intro h
    obtain ⟨vv, hvv⟩ := h o (List.mem_cons_self _ _)
    obtain ⟨vs, hvs⟩ := ih fun o2 h2 => h o2 (List.mem_cons_of_mem _ h2)
    exact ⟨vv :: vs, by simp [optionValues, hvv, hvs]⟩

theorem optionLabels_total :
    ∀ (opts : List (List (String × PyVal))),
      (∀ o ∈ opts, ∃ s, (o.lookup "label").getD ((o.lookup "value").getD .null) = PyVal.str s) →
      ∃ ls, optionLabels opts = .ok ls := by
  intro opts
  induction opts with
  | nil => intro _; exact ⟨[], rfl⟩
  | cons o rest ih =>
    intro h
    obtain ⟨s1, hs1⟩ := h o (List.mem_cons_self _ _)
    obtain ⟨ls, hls⟩ := ih fun o2 h2 => h o2 (List.mem_cons_of_mem _ h2)
    exact ⟨s1 :: ls, by simp [optionLabels, hs1, hls]⟩

theorem validateSelect_total (field : TrackedField) (value : PyVal)
    (h : ∀ opts, field.options = some opts → ∀ o, o ∈ opts →
      (∃ vv, o.lookup "value" = some vv) ∧
      (∃ s, (o.lookup "label").getD ((o.lookup "value").getD .null) = PyVal.str s)) :
    ∃ r, validateSelect field value = .ok r := by
  unfold validateSelect
  cases ho : field.options with
  | none => exact ⟨none, rfl⟩
  | some opts =>
    by_cases he : opts.isEmpty = true
    · exact ⟨none, by simp [he]⟩
    · obtain ⟨vs, hv⟩ := optionValues_total opts fun o ho2 => (h opts ho o ho2).1
      by_cases hin : vs.any (pyEq value) = true
      · exact ⟨none, by simp [he, hv, hin]⟩
      · obtain ⟨ls, hl2⟩ := optionLabels_total opts fun o ho2 => (h opts ho o ho2).2
        exact ⟨some (field.label ++ " must be one of: "
          ++ String.intercalate ", " ls ++ "."), by simp [he, hv, hin, hl2]⟩

theorem validateCheckbox_total (field : TrackedField) (value : PyVal) :
    ∃ r, validateCheckbox field value = .ok r := by
  cases value <;> exact ⟨_, rfl⟩

theorem validateDate_total (lib : PyLib) (field : TrackedField) (value : PyVal) :
    ∃ r, validateDate lib field value = .ok r := by
  unfold validateDate
  split <;> exact ⟨_, rfl⟩

theorem runValidator_total (lib : PyLib) (f : TrackedField) (hwf : WFRules lib f)
    (value : PyVal) : ∃ r, runValidator lib f value f.validation = .ok r := by
  obtain ⟨h1, h2, h3, h4, h5, h6⟩ := hwf
  unfold runValidator
  split
  · exact validateText_total lib f value f.validation h1 h2 h5
  · split
    · exact validateEmail_total lib f value f.validation h1 h2 h5
    · split
      · exact validatePhone_total lib f value f.validation h5
      · split
        · exact validateSsn_total lib f value f.validation h5
        · split
          · exact validateNumber_total f value f.validation h3 h4
          · split
            · rename_i hsel
              exact validateSelect_total f value (h6 hsel)
            · split
              · exact validateCheckbox_total f value
              · split
                · exact validateDate_total lib f value
                · exact ⟨none, rfl⟩

theorem validate_field_total (lib : PyLib) (f : TrackedField) (hwf : WFRules lib f)
    (v : PyVal) : ∃ r, validate_field lib f v = .ok r := by
  unfold validate_field
  split
  · split
    · exact ⟨_, rfl⟩
    · exact ⟨_, rfl⟩
  · obtain ⟨r, hr⟩ := runValidator_total lib f hwf v
    cases r with
    | none => exact ⟨(true, none), by simp [hr]⟩
    | some err =>
      exact ⟨(false, some (customOr (f.validation.lookup "custom_message") err)),
        by simp [hr]⟩

theorem WFFields_setField (lib : PyLib) :
    ∀ (fields : List (String × TrackedField)) (fid : String) (f : TrackedField),
      (∀ kv ∈ fields, WFRules lib kv.2) → WFRules lib f →
      ∀ kv ∈ setField fields fid f, WFRules lib kv.2 := by
  intro fields
  induction fields with
  | nil =>
    intro fid f _ _ kv hkv
    simp [setField] at hkv
  | cons kv0 rest ih =>
    obtain ⟨k1, v1⟩ := kv0
    intro fid f hall hf kv hkv
    have hall2 : ∀ kv ∈ rest, WFRules lib kv.2 :=
      fun kv2 h2 => hall kv2 (List.mem_cons_of_mem _ h2)
    by_cases hk : k1 = fid
    · simp only [setField, if_pos hk] at hkv
      rcases List.mem_cons.mp hkv with rfl | hkv2
      · exact hf
      · exact ih fid f hall2 hf kv hkv2
    · simp only [setField, if_neg hk] at hkv
      rcases List.mem_cons.mp hkv with rfl | hkv2
      · exact hall (k1, v1) (List.mem_cons_self _ _)
      · exact ih fid f hall2 hf kv hkv2

theorem processExtractItems_total (lib : PyLib) :
    ∀ (items : List (String × PyVal)) (fields : List (String × TrackedField)),
      (∀ kv ∈ fields, WFRules lib kv.2) →
      ∃ fu upds fields2, processExtractItems lib items fields = .ok (fu, upds, fields2) ∧
        ∀ kv ∈ fields2, WFRules lib kv.2 := by
  intro items
  induction items with
  | nil => intro fields hall; exact ⟨[], [], fields, rfl, hall⟩
  | cons kv rest ih =>
    obtain ⟨k, w⟩ := kv
    intro fields hall
    cases hn : w.isNull with
    | true =>
      obtain ⟨fu, upds, f2, hrec, hWF⟩ := ih fields hall
      exact ⟨fu, upds, f2, by simp [processExtractItems, hn, hrec], hWF⟩
    | false =>
      cases hlk : fields.lookup k with
      | none =>
        obtain ⟨fu, upds, f2, hrec, hWF⟩ := ih fields hall
        exact ⟨fu, upds, f2, by simp [processExtractItems, hn, hlk, hrec], hWF⟩
      | some field =>
        have hWFf : WFRules lib field := hall (k, field) (lookup_mem fields k field hlk)
        obtain ⟨⟨valid, err⟩, hv⟩ := validate_field_total lib field hWFf w
        cases valid with
        | true =>
          have hf1 : WFRules lib
              {field with value := w, status := .collected, validation_error := none} := hWFf
          obtain ⟨fu, upds, f2, hrec, hWF⟩ := ih
            (setField fields k
              {field with value := w, status := .collected, validation_error := none})
            (WFFields_setField lib fields k _ hall hf1)
          exact ⟨k :: fu, ⟨k, FieldStatus.collected.toStr, some w, none⟩ :: upds, f2,
            by simp [processExtractItems, hn, hlk, hv, hrec], hWF⟩
        | false =>
          have hf1 : WFRules lib {field with validation_error := err} := hWFf
          obtain ⟨fu, upds, f2, hrec, hWF⟩ := ih
            (setField fields k {field with validation_error := err})
            (WFFields_setField lib fields k _ hall hf1)
          exact ⟨fu, ⟨k, field.status.toStr, none, err⟩ :: upds, f2,
            by simp [processExtractItems, hn, hlk, hv, hrec], hWF⟩

theorem processConfirmIds_total (lib : PyLib) :
    ∀ (ids : List PyVal) (fields : List (String × TrackedField)),
      (∀ i ∈ ids, pyHashable i = true) →
      (∀ kv ∈ fields, WFRules lib kv.2) →
      ∃ c upds fields2, processConfirmIds ids fields = .ok (c, upds, fields2) ∧
        ∀ kv ∈ fields2, WFRules lib kv.2 := by
  intro ids
  induction ids with
  | nil =>
    intro fields _ hall
    exact ⟨[], [], fields, rfl, hall⟩
  | cons fid rest ih =>
    intro fields hhash hall
    have hhash2 : ∀ i ∈ rest, pyHashable i = true :=
      fun i h2 => hhash i (List.mem_cons_of_mem _ h2)
    cases fid with
    | list xs =>
      have hx := hhash (.list xs) (List.mem_cons_self _ _)
      simp [pyHashable] at hx
    | dict kvs =>
      have hx := hhash (.dict kvs) (List.mem_cons_self _ _)
      simp [pyHashable] at hx
    | str s =>
      cases hlk : fields.lookup s with
      | none =>
        obtain ⟨c, u, f2, hr, hWF⟩ := ih fields hhash2 hall
        exact ⟨c, u, f2, by simp [processConfirmIds, hlk, hr], hWF⟩
      | some field =>
        by_cases hst : field.status = .unconfirmed ∨ field.status = .confirmed
            ∨ field.status = .collected
        · have hf1 : WFRules lib
              {field with status := .confirmed, validation_error := none} :=
            hall (s, field) (lookup_mem fields s field hlk)
          obtain ⟨c, u, f2, hr, hWF⟩ := ih
            (setField fields s {field with status := .confirmed, validation_error := none})
            hhash2 (WFFields_setField lib fields s _ hall hf1)
          exact ⟨.str s :: c,
            ⟨s, FieldStatus.confirmed.toStr, some field.value, none⟩ :: u, f2,
            by simp [processConfirmIds, hlk, hst, hr], hWF⟩
        · obtain ⟨c, u, f2, hr, hWF⟩ := ih fields hhash2 hall
          exact ⟨c, u, f2, by simp [processConfirmIds, hlk, hst, hr], hWF⟩
    | null =>
      obtain ⟨c, u, f2, hr, hWF⟩ := ih fields hhash2 hall
      exact ⟨c, u, f2, by simp [processConfirmIds, hr], hWF⟩
    | bool b =>
      obtain ⟨c, u, f2, hr, hWF⟩ := ih fields hhash2 hall
      exact ⟨c, u, f2, by simp [processConfirmIds, hr], hWF⟩
    | int n =>
      obtain ⟨c, u, f2, hr, hWF⟩ := ih fields hhash2 hall
      exact ⟨c, u, f2, by simp [processConfirmIds, hr], hWF⟩

theorem processCalls_total (lib : PyLib) :
    ∀ (tcs : List ToolCall) (fields : List (String × TrackedField)),
      (∀ kv ∈ fields, WFRules lib kv.2) →
      (∀ tc ∈ tcs, tc.name = "extract_application_fields" → ∃ kvs, tc.input = .dict kvs) →
      (∀ tc ∈ tcs, tc.name = "confirm_known_fields" → ∃ kvs, tc.input = .dict kvs ∧
        ∃ ids, pyIterate ((kvs.lookup "field_ids").getD (.list [])) = .ok ids ∧
          ∀ i ∈ ids, pyHashable i = true) →
      ∃ res upds fields2, processCalls lib tcs fields = .ok (res, upds, fields2) ∧
        ∀ tc ∈ tcs, ∃ msg, (tc.id, msg) ∈ res := by
  intro tcs
  induction tcs with
  | nil =>
    intro fields _ _ _
    exact ⟨[], [], fields, rfl, by simp⟩
  | cons tc rest ih =>
    intro fields hall hext hconf
    have hext2 : ∀ tc2 ∈ rest, tc2.name = "extract_application_fields" →
        ∃ kvs, tc2.input = .dict kvs :=
      fun tc2 h2 he2 => hext tc2 (List.mem_cons_of_mem _ h2) he2
    have hconf2 : ∀ tc2 ∈ rest, tc2.name = "confirm_known_fields" →
        ∃ kvs, tc2.input = .dict kvs ∧
          ∃ ids, pyIterate ((kvs.lookup "field_ids").getD (.list [])) = .ok ids ∧
            ∀ i ∈ ids, pyHashable i = true :=
      fun tc2 h2 hc2 => hconf tc2 (List.mem_cons_of_mem _ h2) hc2
    by_cases he : tc.name = "extract_application_fields"
    · obtain ⟨kvs, hinp⟩ := hext tc (List.mem_cons_self _ _) he
      obtain ⟨fu, upds, f2, hex, hWF2⟩ := processExtractItems_total lib kvs fields hall
      obtain ⟨res, upds2, f3, hrec, hres⟩ := ih f2 hWF2 hext2 hconf2
      refine ⟨(tc.id, if !fu.isEmpty then "Accepted fields: " ++ pyStr (.list (fu.map .str))
          else "Validation errors: " ++ pyStr (.list (collectErrors f2))) :: res,
        upds ++ upds2, f3, ?_, ?_⟩
      · simp [processCalls, he, hinp, hex, hrec]
      · intro tc2 h2
        rcases List.mem_cons.mp h2 with rfl | h3
        · exact ⟨_, List.mem_cons_self _ _⟩
        · obtain ⟨msg, hmsg⟩ := hres tc2 h3
          exact ⟨msg, List.mem_cons_of_mem _ hmsg⟩
    · by_cases hc : tc.name = "confirm_known_fields"
      · obtain ⟨kvs, hinp, ids, hids, hhash⟩ := hconf tc (List.mem_cons_self _ _) hc
        obtain ⟨confirmed, upds, f2, hcf, hWF1⟩ :=
          processConfirmIds_total lib ids fields hhash hall
        obtain ⟨res, upds2, f3, hrec, hres⟩ := ih f2 hWF1 hext2 hconf2
        refine ⟨(tc.id, "Confirmed fields: " ++ pyStr (.list confirmed)) :: res,
          upds ++ upds2, f3, ?_, ?_⟩
        · simp [processCalls, he, hc, hinp, hids, hcf, hrec]
        · intro tc2 h2
          rcases List.mem_cons.mp h2 with rfl | h3
          · exact ⟨_, List.mem_cons_self _ _⟩
          · obtain ⟨msg, hmsg⟩ := hres tc2 h3
            exact ⟨msg, List.mem_cons_of_mem _ hmsg⟩
      · obtain ⟨res, upds2, f3, hrec, hres⟩ := ih fields hall hext2 hconf2
        refine ⟨(tc.id, "Unknown tool: " ++ tc.name) :: res, upds2, f3, ?_, ?_⟩
        · simp [processCalls, he, hc, hrec]
        · intro tc2 h2
          rcases List.mem_cons.mp h2 with rfl | h3
          · exact ⟨_, List.mem_cons_self _ _⟩
          · obtain ⟨msg, hmsg⟩ := hres tc2 h3
            exact ⟨msg, List.mem_cons_of_mem _ hmsg⟩

/-- C6 (amended): for every batch of tool calls — extract, confirm, or
unknown — `process_tool_calls` returns normally (never raises) with a
per-call result string for every call plus the aggregate update list,
provided the extract/confirm tool inputs are JSON objects, confirm's
`field_ids` value is iterable, and every field's validation rules are
well-formed (numeric bounds numeric, patterns valid regex strings, select
options carrying values and string labels), with the confirm ids hashable
(a list or dict element of `field_ids` raises `TypeError` at
`state.fields.get`).  Without those provisos the original claim is false: an
array-shaped tool input already raises (see the counterexample), as would an
invalid regex pattern in a rules dict. -/
theorem process_tool_calls_total_wf (lib : PyLib) (tool_calls : List ToolCall)
    (st : ConversationState)
    (hwf : ∀ kv ∈ st.fields, WFRules lib kv.2)
    (hext : ∀ tc ∈ tool_calls, tc.name = "extract_application_fields" →
      ∃ kvs, tc.input = .dict kvs)
    (hconf : ∀ tc ∈ tool_calls, tc.name = "confirm_known_fields" →
      ∃ kvs, tc.input = .dict kvs ∧
        ∃ ids, pyIterate ((kvs.lookup "field_ids").getD (.list [])) = .ok ids ∧
          ∀ i ∈ ids, pyHashable i = true) :
    ∃ res upds st2, process_tool_calls lib tool_calls st = .ok (res, upds, st2) ∧
      ∀ tc ∈ tool_calls, ∃ msg, (tc.id, msg) ∈ res := by
  obtain ⟨res, upds, f2, hpc, hres⟩ :=
    processCalls_total lib tool_calls st.fields hwf hext hconf
  exact ⟨res, upds, {st with fields := f2}, by simp [process_tool_calls, hpc], hres⟩

theorem process_tool_calls_total_wf_witness :
    exceptIsOk (process_tool_calls specLib
      [⟨"t1", "extract_application_fields", .dict [("owner_ssn", .str "123-45-6789")]⟩,
       ⟨"t2", "confirm_known_fields", .dict [("field_ids", .list [.str "owner_ssn"])]⟩,
       ⟨"t3", "frobnicate", .null⟩] stSSN) = true := by
  have hwf : ∀ kv ∈ stSSN.fields, WFRules specLib kv.2 := by
    intro kv hkv
    simp only [stSSN, List.mem_singleton] at hkv
    subst hkv
    refine ⟨?_, ?_, ?_, ?_, ?_, ?_⟩
    · intro v hv; simp [ssnField, baseField, List.lookup] at hv
    · intro v hv; simp [ssnField, baseField, List.lookup] at hv
    · intro v hv; simp [ssnField, baseField, List.lookup] at hv
    · intro v hv; simp [ssnField, baseField, List.lookup] at hv
    · intro v hv; simp [ssnField, baseField, List.lookup] at hv
    · intro hft; simp [ssnField, baseField] at hft
  have hext : ∀ tc ∈ [(⟨"t1", "extract_application_fields",
        .dict [("owner_ssn", .str "123-45-6789")]⟩ : ToolCall),
      ⟨"t2", "confirm_known_fields", .dict [("field_ids", .list [.str "owner_ssn"])]⟩,
      ⟨"t3", "frobnicate", .null⟩],
      tc.name = "extract_application_fields" → ∃ kvs, tc.input = .dict kvs := by
    intro tc htc hn
    simp only [List.mem_cons, List.not_mem_nil, or_false] at htc
    rcases htc with rfl | rfl | rfl
    · exact ⟨_, rfl⟩
    · exact absurd hn (by decide)
    · exact absurd hn (by decide)
  have hconf : ∀ tc ∈ [(⟨"t1", "extract_application_fields",
        .dict [("owner_ssn", .str "123-45-6789")]⟩ : ToolCall),
      ⟨"t2", "confirm_known_fields", .dict [("field_ids", .list [.str "owner_ssn"])]⟩,
      ⟨"t3", "frobnicate", .null⟩],
      tc.name = "confirm_known_fields" → ∃ kvs, tc.input = .dict kvs ∧
        ∃ ids, pyIterate ((kvs.lookup "field_ids").getD (.list [])) = .ok ids ∧
          ∀ i ∈ ids, pyHashable i = true := by
    intro tc htc hn
    simp only [List.mem_cons, List.not_mem_nil, or_false] at htc
    rcases htc with rfl | rfl | rfl
    · exact absurd hn (by decide)
    · refine ⟨[("field_ids", .list [.str "owner_ssn"])], rfl, [.str "owner_ssn"], rfl, ?_⟩
      intro i hi
      simp only [List.mem_singleton] at hi
      subst hi
      rfl
    · exact absurd hn (by decide)
  obtain ⟨res, upds, st2, h, -⟩ :=
    process_tool_calls_total_wf specLib _ stSSN hwf hext hconf
  rw [h]
  rfl

/-- C6 (counterexample): `process_tool_calls` does raise on an arbitrary JSON
tool input — an `extract_application_fields` call whose input is a JSON array
hits `inp.items()` and raises `AttributeError` instead of returning a result
for the call. -/
theorem process_tool_calls_raises_on_list_input :
    process_tool_calls specLib [⟨"t1", "extract_application_fields", .list []⟩] stSSN
      = .error "AttributeError: tool input has no attribute items" :=
  rfl
